import Mathlib

/-!
Shallow embedding of the FUNCompiler x86-64 backend (IR construction,
IR-to-MIR lowering, and machine-code emission into a generic object file),
with theorems checking the natural-language specification against it.

Each definition is translated from the corresponding C function; the file,
line and symbol are named in its doc comment.
-/

namespace Funcomp

/-! ## Registers and encoding primitives (part_009, arch_x86_64.h) -/

/-- Register sizes, `enum RegSize` of the x86-64 backend. -/
inductive RegSize
| r8
| r16
| r32
| r64
deriving DecidableEq, Repr

/-- General-purpose registers plus RIP, in the order of
`FOR_ALL_X86_64_REGISTERS` (arch_x86_64.h:9-26); the register descriptor of
a register is its 1-based index in this order (`REG_NONE` is 0). -/
inductive Reg
| RAX
| RCX
| RDX
| R8
| R9
| R10
| R11
| R12
| RBX
| R13
| R14
| R15
| RSI
| RDI
| RBP
| RSP
| RIP
deriving DecidableEq, Repr

/-- Numeric register descriptor: the value of `REG_<name>` in
`enum Registers_x86_64` (arch_x86_64.c:41-45), i.e. 1-based enum index. -/
def reg_descriptor : Reg → Nat
| .RAX => 1
| .RCX => 2
| .RDX => 3
| .R8 => 4
| .R9 => 5
| .R10 => 6
| .R11 => 7
| .R12 => 8
| .RBX => 9
| .R13 => 10
| .R14 => 11
| .R15 => 12
| .RSI => 13
| .RDI => 14
| .RBP => 15
| .RSP => 16
| .RIP => 17

/-- Intel 4-bit encoding of a register, `regbits` (part_009:100-120).
The C function ICEs on RIP (no case); RIP never reaches it on the paths
embedded here, and we return 0 for totality. -/
def regbits : Reg → Nat
| .RAX => 0b0000
| .RCX => 0b0001
| .RDX => 0b0010
| .RBX => 0b0011
| .RSP => 0b0100
| .RBP => 0b0101
| .RSI => 0b0110
| .RDI => 0b0111
| .R8 => 0b1000
| .R9 => 0b1001
| .R10 => 0b1010
| .R11 => 0b1011
| .R12 => 0b1100
| .R13 => 0b1101
| .R14 => 0b1110
| .R15 => 0b1111
| .RIP => 0

/-- Test of the top bit of the 4-bit register encoding, macro
`REGBITS_TOP` / `regbits_top` (part_009:124-128). -/
def regbits_top (r : Reg) : Bool := regbits r &&& 0b1000 != 0

/-- ModR/M byte assembly, `modrm_byte` (part_009:130-137). -/
def modrm_byte (md rg rm : Nat) : Nat :=
  (md <<< 6) ||| ((rg &&& 0b111) <<< 3) ||| (rm &&& 0b111)

/-- SIB byte assembly, `sib_byte` (part_009:146-152). -/
def sib_byte (scale_factor idx base : Nat) : Nat :=
  (scale_factor <<< 6) ||| ((idx &&& 0b111) <<< 3) ||| (base &&& 0b111)

/-- REX prefix byte, `rex_byte` (part_009:92-94). -/
def rex_byte (w r x b : Bool) : Nat :=
  0b01000000 ||| (cond w 0b1000 0) ||| (cond r 0b100 0) ||| (cond x 0b10 0) |||
    (cond b 1 0)

/-- REX.W prefix, `rexw_byte` (part_009:96-98). -/
def rexw_byte : Nat := rex_byte true false false false

/-- Lower three opcode bits for a +rw register operand, `rw_encoding`
(part_009:15-43). The C function is UNREACHABLE on RIP; we return 0. -/
def rw_encoding : Reg → Nat
| .RAX => 0
| .R8 => 0
| .RCX => 1
| .R9 => 1
| .RDX => 2
| .R10 => 2
| .RBX => 3
| .R11 => 3
| .RSP => 4
| .R12 => 4
| .RBP => 5
| .R13 => 5
| .RSI => 6
| .R14 => 6
| .RDI => 7
| .R15 => 7
| .RIP => 0

/-- Alias `rd_encoding` (part_009:64-66). -/
def rd_encoding (r : Reg) : Nat := rw_encoding r

/-- Alias `rb_encoding` (part_009:87-89). -/
def rb_encoding (r : Reg) : Nat := rw_encoding r

/-- Little-endian byte image of the low `n` bytes of the two's-complement
value `v`; models `mcode_n(object, &value, n)` on an x86 host (the buffer
holds the value's low bytes in little-endian order). -/
def le_bytes (n : Nat) (v : Int) : List Nat :=
  (List.range n).map (fun i => ((v.emod (2 ^ (8 * n))).toNat >>> (8 * i)) &&& 0xFF)

/-! ## Claim C1: stack frame kinds (arch_x86_64.c `stack_frame_kind`,
part_009 `emit_x86_64_generic_object` prologue/epilogue) -/

/-- Frame kinds, `enum StackFrameKind` (arch_x86_64.c:222-226). -/
inductive StackFrameKind
| FRAME_FULL
| FRAME_MINIMAL
| FRAME_NONE
deriving DecidableEq, Repr

/-- Selection of the stack frame kind, `stack_frame_kind`
(arch_x86_64.c:228-243): full frame when not optimising; full frame when
there are locals; minimal when not a leaf function; otherwise none. -/
def stack_frame_kind (optimise : Bool) (locals_total_size : Nat)
    (attr_leaf : Bool) : StackFrameKind :=
  if !optimise then .FRAME_FULL
  else if locals_total_size != 0 then .FRAME_FULL
  else if !attr_leaf then .FRAME_MINIMAL
  else .FRAME_NONE

/-- Round `x` up to a multiple of `align`. Modelled from the spec: the
`ALIGN_TO` macro lives in a utility header that is not under src; the spec
writes `align16(frame)` for `ALIGN_TO(frame, 16)`. -/
def align_to (x align : Nat) : Nat := ((x + align - 1) / align) * align

/-- Machine instructions materialized by the frame prologue/epilogue,
abstracting the `mcode_reg` / `mcode_reg_to_reg` / `mcode_imm_to_reg`
calls of part_009:2272-2291 and 2532-2556. -/
inductive X86Instr
| push (r : Reg) (sz : RegSize)
| pop (r : Reg) (sz : RegSize)
| mov_rr (src dst : Reg)
| sub_ri (imm : Nat) (dst : Reg)
| add_ri (imm : Nat) (dst : Reg)
deriving DecidableEq, Repr

/-- The `mcode_imm_to_reg` entry check (part_009:179): a SUB with
immediate 0 is elided and emits nothing. -/
def imm_to_reg_sub (imm : Nat) (dst : Reg) : List X86Instr :=
  if imm = 0 then [] else [.sub_ri imm dst]

/-- The `mcode_imm_to_reg` entry check (part_009:179): an ADD with
immediate 0 is elided and emits nothing. -/
def imm_to_reg_add (imm : Nat) (dst : Reg) : List X86Instr :=
  if imm = 0 then [] else [.add_ri imm dst]

/-- Prologue materialization per frame kind, the `switch (frame_kind)` of
`emit_x86_64_generic_object` (part_009:2271-2291): nothing for FRAME_NONE;
`SUB RSP, ALIGN_TO(frame_size,16)+8` for FRAME_MINIMAL; `PUSH RBP; MOV
RSP,RBP;` then, when `frame_size` is nonzero, `SUB RSP,
ALIGN_TO(frame_size,16)` for FRAME_FULL. -/
def function_prologue (k : StackFrameKind) (frame_size : Nat) : List X86Instr :=
  match k with
  | .FRAME_NONE => []
  | .FRAME_MINIMAL => imm_to_reg_sub (align_to frame_size 16 + 8) .RSP
  | .FRAME_FULL =>
      [.push .RBP .r64, .mov_rr .RSP .RBP] ++
        (if frame_size != 0 then imm_to_reg_sub (align_to frame_size 16) .RSP
         else [])

/-- Epilogue materialization per frame kind, the `MX64_RET` case of
`emit_x86_64_generic_object` (part_009:2532-2556), emitted before the RET
byte itself. -/
def function_epilogue (k : StackFrameKind) (frame_size : Nat) : List X86Instr :=
  match k with
  | .FRAME_NONE => []
  | .FRAME_FULL => [.mov_rr .RBP .RSP, .pop .RBP .r64]
  | .FRAME_MINIMAL => imm_to_reg_add (align_to frame_size 16 + 8) .RSP

/-! ## Claim C4: immediate-to-register MOV (part_009 `mcode_imm_to_reg`,
case MX64_MOV, lines 223-288) -/

/-- The MX64_MOV case of `mcode_imm_to_reg` (part_009:223-288), returning
the bytes appended to the code section. The first line is the narrowing
check `if (size == r64 && immediate > INT32_MIN && immediate < INT32_MAX)
size = r32;`. -/
def mcode_imm_to_reg_mov (immediate : Int) (dst : Reg) (size : RegSize) :
    List Nat :=
  let sz := if size = RegSize.r64 ∧ -2147483648 < immediate ∧
      immediate < 2147483647 then RegSize.r32 else size
  match sz with
  | .r8 =>
      (if regbits_top dst then [rex_byte false false false true] else []) ++
        [0xb0 + rb_encoding dst] ++ le_bytes 1 immediate
  | .r16 =>
      (if regbits_top dst then [rex_byte false false false true] else []) ++
        [0x66, 0xb8 + rw_encoding dst] ++ le_bytes 2 immediate
  | .r32 =>
      (if regbits_top dst then [rex_byte false false false true] else []) ++
        [0xb8 + rd_encoding dst] ++ le_bytes 4 immediate
  | .r64 =>
      [rex_byte true false false (regbits_top dst), 0xb8 + rd_encoding dst] ++
        le_bytes 8 immediate

/-! ## Claim C3: immediate-to-memory encodings (part_009 `mcode_imm_to_mem`,
lines 397-575) -/

/-- Body shared by the r16 fallthrough and the r32 case of the MX64_MOV
branch of `mcode_imm_to_mem` (part_009:444-497): opcode 0xc7, opcode
extension 0, immediate written as 2 bytes when `is16`, else 4. -/
def mcode_imm_to_mem_mov_c7 (immediate : Int) (addr : Reg) (offset : Int)
    (is16 : Bool) : List Nat :=
  (if regbits_top addr then [rex_byte false false false true] else []) ++
    (if offset = 0 then
      [0xc7, modrm_byte 0b00 0 (regbits addr)] ++
        le_bytes (if is16 then 2 else 4) immediate
     else
      [0xc7, modrm_byte 0b10 0 (regbits addr)] ++
        (if addr = Reg.RSP then [sib_byte 0b00 0b100 (regbits addr)] else []) ++
        le_bytes 4 offset ++ le_bytes (if is16 then 2 else 4) immediate)

/-- The MX64_MOV case of `mcode_imm_to_mem` (part_009:400-533): immediate
store to `[addr + offset]`. A zero offset always selects ModR/M mode 0b00
(no RBP/R13 special case), and a SIB byte is emitted only for an RSP base
with a nonzero offset (never for R12). -/
def mcode_imm_to_mem_mov (immediate : Int) (addr : Reg) (offset : Int)
    (size : RegSize) : List Nat :=
  match size with
  | .r8 =>
      (if regbits_top addr then [rex_byte false false false true] else []) ++
        (if offset = 0 then
          [0xc6, modrm_byte 0b00 0 (regbits addr)] ++ le_bytes 1 immediate
         else
          [0xc6, modrm_byte 0b10 0 (regbits addr)] ++
            (if addr = Reg.RSP then [sib_byte 0b00 0b100 (regbits addr)]
             else []) ++
            le_bytes 4 offset ++ le_bytes 1 immediate)
  | .r16 => [0x66] ++ mcode_imm_to_mem_mov_c7 immediate addr offset true
  | .r32 => mcode_imm_to_mem_mov_c7 immediate addr offset false
  | .r64 =>
      [rex_byte true false false (regbits_top addr)] ++
        (if offset = 0 then
          [0xc7, modrm_byte 0b00 0 (regbits addr)] ++ le_bytes 4 immediate
         else
          [0xc7, modrm_byte 0b10 0 (regbits addr)] ++
            (if addr = Reg.RSP then [sib_byte 0b00 0b100 (regbits addr)]
             else []) ++
            le_bytes 4 offset ++ le_bytes 4 immediate)

/-- The MX64_SUB case of `mcode_imm_to_mem` (part_009:536-573); the source
asserts the size is r64. Both branches select mode 0b00/0b10 without the
RBP/R13 special case and emit a SIB byte only for an RSP base. -/
def mcode_imm_to_mem_sub (immediate : Int) (addr : Reg) (offset : Int) :
    List Nat :=
  if offset = 0 then
    [rex_byte true false false (regbits_top addr), 0x81,
        modrm_byte 0b00 5 (regbits addr)] ++
      (if addr = Reg.RSP then [sib_byte 0b00 0b100 (regbits addr)] else []) ++
      le_bytes 4 immediate
  else
    [rex_byte true false false (regbits_top addr), 0x81,
        modrm_byte 0b10 5 (regbits addr)] ++
      (if addr = Reg.RSP then [sib_byte 0b00 0b100 (regbits addr)] else []) ++
      le_bytes 4 offset ++ le_bytes 4 immediate

/-! ## MIR data model (part_007 mir.h) -/

/-- Binary instruction kinds, `ALL_BINARY_INSTRUCTION_TYPES`
(intermediate_representation.h:28-46). -/
inductive BinOp
| ADD
| SUB
| MUL
| DIV
| MOD
| SHL
| SAR
| SHR
| AND
| OR
| LT
| LE
| GT
| GE
| EQ
| NE
deriving DecidableEq, Repr

/-- Machine operand kinds, `enum MIROperandType` (part_007:43-58).
`M_OP_NONE` is 0 and is the value calloc gives a fresh operand slot. -/
inductive MOpKind
| M_OP_NONE
| M_OP_IMM
| M_OP_REG
| M_OP_FUNC
| M_OP_STATIC_REF
| M_OP_BLOCK
| M_OP_POISON
| M_OP_BUNDLE
deriving DecidableEq, Repr

/-- A `MachineOperand` (part_007:60-68); the C union of
value/function/block/static_ref pointers is collapsed into one Nat that
holds the immediate, vreg/physical register descriptor, or node id. -/
structure MachineOperand where
  kind : MOpKind
  value : Nat
deriving DecidableEq, Repr

/-- A zeroed `MachineOperand`, as produced by `calloc`. -/
def machine_operand_zero : MachineOperand := ⟨.M_OP_NONE, 0⟩

/-- MIR opcodes, `enum MIRType` (part_007:28-41); the binary opcodes are
generated uniformly from `ALL_BINARY_INSTRUCTION_TYPES`. -/
inductive MIRKind
| M_IMM
| M_COPY
| M_CALL
| M_LOAD
| M_STORE
| M_RETURN
| M_BRANCH
| M_NOT
| M_BIN (op : BinOp)
deriving DecidableEq, Repr

/-- An `MInst` (part_007:69-88). In C the three fixed operand slots and
the bundle vector are one union whose layout interleaves the three
operand kind fields with the vector data/size/capacity words, so pushing
to the bundle never touches any operand kind field; modelling the slots
and the bundle as separate fields with that non-interference is exact for
every code path embedded here. `refcount` is the use counter bumped on
memoized re-visits. -/
structure MInst where
  kind : MIRKind
  vreg : Nat
  refcount : Nat
  operands : MachineOperand × MachineOperand × MachineOperand
  bundle : List MachineOperand
deriving DecidableEq, Repr

/-- A zeroed `MInst` as produced by `calloc` (MIR opcode 0 is `M_IMM`). -/
def mzero : MInst :=
  { kind := .M_IMM, vreg := 0, refcount := 0,
    operands := (machine_operand_zero, machine_operand_zero,
      machine_operand_zero),
    bundle := [] }

/-- First virtual register number, `VREG_MIN` (part_007:7); physical
register descriptors are below it. -/
def VREG_MIN : Nat := 1024

/-- The invalid vreg, `VREG_INVALID` (part_007:8). -/
def VREG_INVALID : Nat := 0

/-- Operand iteration of the `FOREACH_MIR_OP` macro (part_007:15-26): if
the first operand slot carries the bundle sentinel the heap bundle is
iterated, otherwise the three fixed slots up to the first `M_OP_NONE`. -/
def mir_op_list (mi : MInst) : List MachineOperand :=
  if mi.operands.1.kind = .M_OP_BUNDLE then mi.bundle
  else [mi.operands.1, mi.operands.2.1, mi.operands.2.2].takeWhile
    (fun op => op.kind != .M_OP_NONE)

/-! ## Claim C8: parameter lowering (arch_x86_64.c `codegen_lower_x86_64`,
lines 783-819, and `linux_argument_registers`, lines 647-650) -/

/-- Calling conventions, `enum CodegenCallingConvention`. -/
inductive CallConv
| CG_CALL_CONV_MSWIN
| CG_CALL_CONV_LINUX
deriving DecidableEq, Repr

/-- ABI argument registers for System V, `linux_argument_registers`
(arch_x86_64.c:648-650). -/
def linux_argument_registers : List Reg :=
  [.RDI, .RSI, .RDX, .RCX, .R8, .R9]

/-- The `IR_PARAMETER` case of `codegen_lower_x86_64`
(arch_x86_64.c:790-801): an ASSERT aborts on a non-Linux convention; an
index at or past the 6 argument registers hits the stack-argument TODO
and aborts; otherwise an `M_COPY` is created whose operand 0 is the
register operand holding the descriptor of `linux_argument_registers[i]`,
with the vreg taken from the function counter. -/
def codegen_lower_parameter (cc : CallConv) (i : Nat) (mi_counter : Nat) :
    Except String (MInst × Nat) :=
  if cc ≠ .CG_CALL_CONV_LINUX then
    .error "ISel only supports Linux calling convention at the moment."
  else if 6 ≤ i then
    .error
      "x86_64 backend does not yet support passing arguments on the stack"
  else
    .ok ({ kind := .M_COPY, vreg := mi_counter, refcount := 0,
           operands := (⟨.M_OP_REG,
              reg_descriptor (linux_argument_registers.getD i .RAX)⟩,
             machine_operand_zero, machine_operand_zero),
           bundle := [] }, mi_counter + 1)

/-! ## Claim C5: error propagation through the compile entry point
(part_000 `codegen`, `symbol_to_address`, `codegen_program`) -/

/-- Error kinds of the frontend `Error` struct (subset used here). -/
inductive ErrorType
| ERROR_NONE
| ERROR_ARGUMENTS
| ERROR_GENERIC
deriving DecidableEq, Repr

/-- The frontend `Error` value: a kind plus a message. -/
structure CError where
  t : ErrorType
  msg : String
deriving DecidableEq, Repr

/-- The `ok` error constant (no error). -/
def err_ok : CError := ⟨.ERROR_NONE, ""⟩

/-- Result of `symbol_to_address` (part_000:141-155). -/
inductive SymbolAddress
| mode_global (s : String)
| mode_local (inst : Nat)
| mode_error (e : CError)
deriving DecidableEq, Repr

/-- Environment lookup, `environment_get` keyed by symbol name. -/
def environment_get (env : List (String × Nat)) (key : String) : Option Nat :=
  (env.find? (fun p => p.1 == key)).map Prod.snd

/-- Symbol resolution, `symbol_to_address` (part_000:157-201): without a
parent context the symbol is a global; otherwise it is looked up among the
locals, and a missing symbol produces an `ERROR_GENERIC` error naming it. -/
def symbol_to_address (has_parent : Bool) (locals : List (String × Nat))
    (symbol : String) : SymbolAddress :=
  if !has_parent then .mode_global symbol
  else
    match environment_get locals symbol with
    | none =>
        .mode_error ⟨.ERROR_GENERIC,
          "symbol_to_address(): Could not find symbol " ++ symbol ++
            " in environment."⟩
    | some addr => .mode_local addr

/-- The `SYMBOL_ADDRESS_MODE_ERROR` arm of the
`NODE_TYPE_VARIABLE_REASSIGNMENT` case of `codegen_expression`
(part_000:612-616): the address error is returned as the expression
error. -/
def codegen_expression_reassignment_error (has_parent : Bool)
    (locals : List (String × Nat)) (symbol : String) : CError :=
  match symbol_to_address has_parent locals symbol with
  | .mode_error e => e
  | _ => err_ok

/-- The expression loop of `codegen_program` / `codegen_function`
(part_000:752-763, 780-789): each expression is codegenned in order and
the first error is returned immediately. -/
def codegen_program_err : List CError → CError
| [] => err_ok
| e :: rest => if e.t ≠ .ERROR_NONE then e else codegen_program_err rest

/-- Pipeline phases invoked by `codegen` after IR construction. -/
inductive Phase
| phase_optimise
| phase_lower
| phase_emit
deriving DecidableEq, Repr

/-- Outcome of the top-level `codegen` entry point: the error it returns
and the phases it invoked. -/
structure CodegenRun where
  err : CError
  phases : List Phase
deriving DecidableEq, Repr

/-- Control flow of `codegen` (part_000:826-879) for a LANG_FUN input:
`err` is assigned the result of `codegen_program`, then — with no check of
`err.type` in between — `codegen_optimise` runs when optimising, and
`codegen_lower` and `codegen_emit` run unconditionally; `err` is returned
at the end. -/
def codegen_run (optimise : Bool) (program_err : CError) : CodegenRun :=
  ⟨program_err,
    (if optimise then [Phase.phase_optimise] else []) ++
      [Phase.phase_lower, Phase.phase_emit]⟩

/-! ## Claim C6: return value of an empty function body
(part_000 `codegen_function` lines 695-772, `codegen_program` 774-797) -/

/-- An AST expression node, reduced to the `result` decoration that IR
construction records on it (the IR value id). -/
structure ASTNode where
  result : Nat
deriving DecidableEq, Repr

/-- The body loop of `codegen_function` (part_000:752-760):
`last_expression` starts NULL and is overwritten with each body
expression in turn. -/
def codegen_last_expression (body : List ASTNode) : Option ASTNode :=
  body.foldl (fun _acc e => some e) none

/-- The return emitted by `codegen_function` (part_000:763):
`ir_return(cg_context, last_expression->result)` with no NULL check, so
an empty body dereferences a NULL `last_expression` — modelled as `none`
(no value exists; there is no immediate-0 fallback on this path). -/
def codegen_function_return_arg (body : List ASTNode) : Option Nat :=
  (codegen_last_expression body).map ASTNode.result

/-- Return argument selected by `codegen_program`. -/
inductive RetArg
| ret_value (v : Nat)
| ret_imm_zero
deriving DecidableEq, Repr

/-- The return emitted by `codegen_program` (part_000:790-793):
`last_expression ? last_expression->result : ir_immediate(context, 0)` —
this path does have the immediate-0 fallback. -/
def codegen_program_return_arg (body : List ASTNode) : RetArg :=
  match codegen_last_expression body with
  | some n => .ret_value n.result
  | none => .ret_imm_zero

/-! ## Claim C10: relocation addends (part_009 `mcode_name` 2097-2140,
`mcode_jcc` 2207-2235, `mcode_name_to_reg` RIP-relative LEA 800-833,
864-892) -/

/-- Relocation types, `enum RelocationType` (part_011:30-35);
`RELOC_DISP32_PCREL` is 0. -/
inductive RelocType
| RELOC_DISP32_PCREL
| RELOC_DISP32
deriving DecidableEq, Repr

/-- Symbol types, `enum GObjSymbolType` (part_011:11-18). -/
inductive GObjSymbolType
| GOBJ_SYMTYPE_NONE
| GOBJ_SYMTYPE_FUNCTION
| GOBJ_SYMTYPE_STATIC
| GOBJ_SYMTYPE_EXPORT
| GOBJ_SYMTYPE_EXTERNAL
deriving DecidableEq, Repr

/-- A `GObjSymbol` (part_011:20-28); `stype` is the C field `type`. -/
structure GObjSymbol where
  stype : GObjSymbolType
  name : String
  section_name : String
  byte_offset : Nat
deriving DecidableEq, Repr

/-- A `RelocationEntry` (part_011:37-42); `rtype` is the C field `type`. -/
structure RelocationEntry where
  rtype : RelocType
  sym : GObjSymbol
  addend : Int
deriving DecidableEq, Repr

/-- The zero-initialized `RelocationEntry reloc = {0};` every emission
site starts from: enum fields 0, empty names, offset 0, addend 0. -/
def relocation_entry_zero : RelocationEntry :=
  ⟨.RELOC_DISP32_PCREL, ⟨.GOBJ_SYMTYPE_NONE, "", "", 0⟩, 0⟩

/-- The MX64_CALL case of `mcode_name` (part_009:2100-2117), starting at
code-section size `pos`: opcode 0xe8, a DISP32_PCREL relocation at the
displacement position, then four zero displacement bytes. Returns the
appended bytes and the pushed relocation. -/
def mcode_name_call (pos : Nat) (name sec : String) (is_function : Bool) :
    List Nat × RelocationEntry :=
  ([0xe8] ++ le_bytes 4 0,
   { relocation_entry_zero with
       rtype := .RELOC_DISP32_PCREL,
       sym := { relocation_entry_zero.sym with
                  stype := if is_function then .GOBJ_SYMTYPE_FUNCTION
                           else relocation_entry_zero.sym.stype,
                  byte_offset := pos + 1, name := name,
                  section_name := sec } })

/-- The MX64_JMP case of `mcode_name` (part_009:2119-2136): opcode 0xe9,
same relocation pattern. -/
def mcode_name_jmp (pos : Nat) (name sec : String) (is_function : Bool) :
    List Nat × RelocationEntry :=
  ([0xe9] ++ le_bytes 4 0,
   { relocation_entry_zero with
       rtype := .RELOC_DISP32_PCREL,
       sym := { relocation_entry_zero.sym with
                  stype := if is_function then .GOBJ_SYMTYPE_FUNCTION
                           else relocation_entry_zero.sym.stype,
                  byte_offset := pos + 1, name := name,
                  section_name := sec } })

/-- Jump condition kinds handled by `mcode_jcc` (part_009:2208-2217). -/
inductive IndirectJumpType
| JUMP_TYPE_E
| JUMP_TYPE_NE
| JUMP_TYPE_G
| JUMP_TYPE_L
| JUMP_TYPE_GE
| JUMP_TYPE_LE
deriving DecidableEq, Repr

/-- Jcc opcode selection of `mcode_jcc` (part_009:2208-2217). -/
def jcc_opcode : IndirectJumpType → Nat
| .JUMP_TYPE_E => 0x84
| .JUMP_TYPE_NE => 0x85
| .JUMP_TYPE_G => 0x8f
| .JUMP_TYPE_L => 0x8c
| .JUMP_TYPE_GE => 0x8d
| .JUMP_TYPE_LE => 0x8e

/-- Conditional jump emission, `mcode_jcc` (part_009:2206-2235): 0x0f
escape plus the condition opcode, a DISP32_PCREL relocation at the
displacement position, then four zero bytes. -/
def mcode_jcc (pos : Nat) (t : IndirectJumpType) (label sec : String)
    (is_function : Bool) : List Nat × RelocationEntry :=
  ([0x0f, jcc_opcode t] ++ le_bytes 4 0,
   { relocation_entry_zero with
       rtype := .RELOC_DISP32_PCREL,
       sym := { relocation_entry_zero.sym with
                  stype := if is_function then .GOBJ_SYMTYPE_FUNCTION
                           else relocation_entry_zero.sym.stype,
                  byte_offset := pos + 2, name := label,
                  section_name := sec } })

/-- The RIP-relative branch of the MX64_LEA case of `mcode_name_to_reg`
(part_009:800-833 for r16/r32, 864-892 for r64): ModR/M mode 0b00 with
r/m=0b101 plus a DISP32_PCREL relocation and four zero bytes. The r8 case
ICEs in the source (`none` here). -/
def mcode_name_to_reg_lea_rip (pos : Nat) (name sec : String) (dst : Reg)
    (size : RegSize) : Option (List Nat × RelocationEntry) :=
  match size with
  | .r8 => none
  | .r16 =>
      let rexpart := if regbits_top dst then
        [rex_byte false (regbits_top dst) false false] else []
      let pre := [0x66] ++ rexpart ++
        [0x8d, modrm_byte 0b00 (regbits dst) 0b101]
      some (pre ++ le_bytes 4 0,
        { relocation_entry_zero with
            rtype := .RELOC_DISP32_PCREL,
            sym := { relocation_entry_zero.sym with
                       byte_offset := pos + pre.length, name := name,
                       section_name := sec } })
  | .r32 =>
      let rexpart := if regbits_top dst then
        [rex_byte false (regbits_top dst) false false] else []
      let pre := rexpart ++ [0x8d, modrm_byte 0b00 (regbits dst) 0b101]
      some (pre ++ le_bytes 4 0,
        { relocation_entry_zero with
            rtype := .RELOC_DISP32_PCREL,
            sym := { relocation_entry_zero.sym with
                       byte_offset := pos + pre.length, name := name,
                       section_name := sec } })
  | .r64 =>
      let pre := [rex_byte true (regbits_top dst) false false, 0x8d,
        modrm_byte 0b00 (regbits dst) 0b101]
      some (pre ++ le_bytes 4 0,
        { relocation_entry_zero with
            rtype := .RELOC_DISP32_PCREL,
            sym := { relocation_entry_zero.sym with
                       byte_offset := pos + pre.length, name := name,
                       section_name := sec } })

/-! ## Claims C7 and C9: IR-to-MIR conversion (part_006 `ir_to_mir_impl`,
lines 28-176, with the MIR types of part_007) -/

/-- IR instruction kinds, `enum IRType`
(intermediate_representation.h:50-95), each constructor carrying the
fields its `ir_to_mir_impl` case reads. Operands, blocks, callees and
static variables are identified by Nat ids. -/
inductive IRKind
| IR_IMMEDIATE (imm : Nat)
| IR_CALL (is_indirect : Bool) (callee_instruction : Nat)
    (callee_function : Nat) (arguments : List Nat) (ret_void : Bool)
| IR_LOAD (operand : Nat)
| IR_RETURN (operand : Option Nat)
| IR_BRANCH (destination_block : Nat)
| IR_BRANCH_CONDITIONAL (condition then_block else_block : Nat)
| IR_COPY (operand : Nat)
| IR_BIN (op : BinOp) (lhs rhs : Nat)
| IR_STATIC_REF (static_ref : Nat)
| IR_FUNC_REF (function_ref : Nat)
| IR_STORE (addr value : Nat)
| IR_NOT (operand : Nat)
| IR_REGISTER
| IR_UNREACHABLE
| IR_PHI (vreg : Nat)
| IR_ALLOCA
| IR_PARAMETER (index : Nat)
| IR_LIT_INTEGER
| IR_LIT_STRING
deriving DecidableEq, Repr

/-- An IR instruction: its kind, its users list (ids of instructions that
use it), and its `result` precolour (0 = unset). -/
structure IRInstruction where
  kind : IRKind
  users : List Nat
  result : Nat
deriving DecidableEq, Repr

/-- The predicate of the `vector_find_if` in the IR_COPY case
(part_006:125-126): a user whose kind is IR_PHI. -/
def is_phi_inst (i : IRInstruction) : Bool :=
  match i.kind with
  | .IR_PHI _ => true
  | _ => false

/-- Reading `->phi.vreg` from an instruction found by `is_phi_inst`. -/
def phi_vreg_of (k : IRKind) : Nat :=
  match k with
  | .IR_PHI v => v
  | _ => 0

/-- Lowering state of one MIR function: the vreg counter `mi_counter`,
all created MInsts in creation order, and the `ir->mi` back-pointer map
from IR instruction id to MInst index. -/
structure MirState where
  mi_counter : Nat
  minsts : List MInst
  memo : Nat → Option Nat

/-- Set the vreg counter (`function->mi_counter` writes). -/
def set_counter (s : MirState) (c : Nat) : MirState :=
  { s with mi_counter := c }

/-- Create an MInst and record it on the IR instruction. This is
`insert_mi` (part_006:11-13) plus the `ir->mi` memo write. Modelled from
the spec: the creation macro `CREATE_MIR_INSTRUCTION_VREG` used by
part_006 is not under src (part_007 has only a sketch of
`CREATE_MIR_INSTRUCTION` that omits the `ir->mi` assignment, yet the rest
of part_006 — the memo check, the trailing `return ir->mi->vreg`, and the
`ASSERT(!instruction->mi)` in arch_x86_64.c — all presuppose it); spec
3.3: each IR instruction maps to at most one MInst, memoized by a pointer
on the IR instruction. -/
def push_minst (s : MirState) (id : Nat) (mi : MInst) : MirState :=
  { mi_counter := s.mi_counter, minsts := s.minsts ++ [mi],
    memo := fun j => if j = id then some s.minsts.length else s.memo j }

/-- Apply `f` to the MInst at `idx` (a field write through `mi->`). -/
def update_minst (s : MirState) (idx : Nat) (f : MInst → MInst) : MirState :=
  { s with minsts := s.minsts.set idx (f (s.minsts.getD idx mzero)) }

/-- The `ir->mi->refcount++` of a memoized re-visit (part_006:32). -/
def bump_refcount (s : MirState) (idx : Nat) : MirState :=
  update_minst s idx (fun m => { m with refcount := m.refcount + 1 })

/-- Write `mi->operands[0]`. -/
def set_op0 (s : MirState) (idx : Nat) (op : MachineOperand) : MirState :=
  update_minst s idx
    (fun m => { m with operands := (op, m.operands.2.1, m.operands.2.2) })

/-- Write `mi->operands[1]`. -/
def set_op1 (s : MirState) (idx : Nat) (op : MachineOperand) : MirState :=
  update_minst s idx
    (fun m => { m with operands := (m.operands.1, op, m.operands.2.2) })

/-- Write `mi->operands[2]`. -/
def set_op2 (s : MirState) (idx : Nat) (op : MachineOperand) : MirState :=
  update_minst s idx
    (fun m => { m with operands := (m.operands.1, m.operands.2.1, op) })

/-- Append operands to `mi->bundle` (`vector_push(mi->bundle, ...)`; the
pushes are interleaved with the argument recursions in C, but no
recursive step reads or writes the bundle of this MInst, so appending
them after the recursions yields the identical state). -/
def push_bundle (s : MirState) (idx : Nat) (ops : List MachineOperand) :
    MirState :=
  update_minst s idx (fun m => { m with bundle := m.bundle ++ ops })

/-- Sequential lowering of a list of IR operands with an element-lowering
function `f`, collecting the vregs: the shape of the `foreach_ptr` loop
over call arguments (part_006:78-84). -/
def lower_operand_list (f : MirState → Nat → Option (Nat × MirState)) :
    MirState → List Nat → Option (List Nat × MirState)
| s, [] => some ([], s)
| s, a :: rest =>
    match f s a with
    | none => none
    | some (v, s2) =>
      match lower_operand_list f s2 rest with
      | none => none
      | some (vs, s3) => some (v :: vs, s3)

/-- The conversion `ir_to_mir_impl` (part_006:28-171), fuel-bounded (the
C recursion can diverge on a cyclic operand graph; `none` also models the
entry ASSERTs and the UNREACHABLE/ICE aborts; every recursive call runs
on the fuel predecessor). Returns the vreg of the instruction and the
updated state. -/
def ir_to_mir_impl (env : Nat → IRInstruction) (fuel : Nat) (s : MirState)
    (id : Nat) (increase_refcount : Bool) : Option (Nat × MirState) :=
  match fuel with
  | 0 => none
  | fuel + 1 =>
    if s.mi_counter < VREG_MIN then none
    else if (env id).result ≠ 0 then none
    else
      match s.memo id with
      | some idx =>
          some ((s.minsts.getD idx mzero).vreg,
            if increase_refcount then bump_refcount s idx else s)
      | none =>
        match (env id).kind with
        | .IR_PHI vreg => some (vreg, s)
        | .IR_IMMEDIATE imm =>
            let idx := s.minsts.length
            let s1 := push_minst (set_counter s (s.mi_counter + 1)) id
              { mzero with
                kind := .M_IMM
                vreg := s.mi_counter
                operands := (⟨.M_OP_IMM, imm⟩, machine_operand_zero,
                  machine_operand_zero) }
            some ((s1.minsts.getD idx mzero).vreg, s1)
        | .IR_CALL is_indirect callee_instruction callee_function
            arguments ret_void =>
            let idx := s.minsts.length
            let s1 := push_minst
              (set_counter s
                (if ret_void then s.mi_counter else s.mi_counter + 1)) id
              { mzero with
                kind := .M_CALL
                vreg := if ret_void then VREG_INVALID else s.mi_counter }
            match (if is_indirect then
                match ir_to_mir_impl env fuel s1 callee_instruction true with
                | none => none
                | some (v, s2) =>
                    some ((⟨.M_OP_REG, v⟩ : MachineOperand), s2)
              else some ((⟨.M_OP_FUNC, callee_function⟩ : MachineOperand),
                s1)) with
            | none => none
            | some (callee, s2) =>
              if arguments.length > 2 then
                match lower_operand_list
                    (fun st a => ir_to_mir_impl env fuel st a true) s2
                    arguments with
                | none => none
                | some (vs, s3) =>
                  let s4 := push_bundle s3 idx
                    (callee :: vs.map (fun v => ⟨.M_OP_REG, v⟩))
                  some ((s4.minsts.getD idx mzero).vreg, s4)
              else
                match arguments with
                | [] =>
                    let s3 := set_op0 s2 idx callee
                    some ((s3.minsts.getD idx mzero).vreg, s3)
                | [a0] =>
                    let s3 := set_op0 s2 idx callee
                    match ir_to_mir_impl env fuel s3 a0 true with
                    | none => none
                    | some (v0, s4) =>
                        let s5 := set_op1 s4 idx ⟨.M_OP_REG, v0⟩
                        some ((s5.minsts.getD idx mzero).vreg, s5)
                | a0 :: a1 :: _ =>
                    let s3 := set_op0 s2 idx callee
                    match ir_to_mir_impl env fuel s3 a0 true with
                    | none => none
                    | some (v0, s4) =>
                      let s5 := set_op1 s4 idx ⟨.M_OP_REG, v0⟩
                      match ir_to_mir_impl env fuel s5 a1 true with
                      | none => none
                      | some (v1, s6) =>
                        let s7 := set_op2 s6 idx ⟨.M_OP_REG, v1⟩
                        some ((s7.minsts.getD idx mzero).vreg, s7)
        | .IR_LOAD operand =>
            let idx := s.minsts.length
            let s1 := push_minst (set_counter s (s.mi_counter + 1)) id
              { mzero with kind := .M_LOAD, vreg := s.mi_counter }
            match ir_to_mir_impl env fuel s1 operand true with
            | none => none
            | some (v, s2) =>
                let s3 := set_op0 s2 idx ⟨.M_OP_REG, v⟩
                some ((s3.minsts.getD idx mzero).vreg, s3)
        | .IR_RETURN operand =>
            let idx := s.minsts.length
            let s1 := push_minst s id
              { mzero with kind := .M_RETURN, vreg := VREG_INVALID }
            match operand with
            | none => some ((s1.minsts.getD idx mzero).vreg, s1)
            | some o =>
              match ir_to_mir_impl env fuel s1 o true with
              | none => none
              | some (v, s2) =>
                  let s3 := set_op0 s2 idx ⟨.M_OP_REG, v⟩
                  some ((s3.minsts.getD idx mzero).vreg, s3)
        | .IR_BRANCH destination_block =>
            let idx := s.minsts.length
            let s1 := set_op0
              (push_minst s id
                { mzero with kind := .M_BRANCH, vreg := VREG_INVALID })
              idx ⟨.M_OP_BLOCK, destination_block⟩
            some ((s1.minsts.getD idx mzero).vreg, s1)
        | .IR_BRANCH_CONDITIONAL condition then_block else_block =>
            let idx := s.minsts.length
            let s1 := push_minst s id
              { mzero with kind := .M_BRANCH, vreg := VREG_INVALID }
            match ir_to_mir_impl env fuel s1 condition true with
            | none => none
            | some (v, s2) =>
                let s3 := set_op2
                  (set_op1 (set_op0 s2 idx ⟨.M_OP_REG, v⟩) idx
                    ⟨.M_OP_BLOCK, then_block⟩)
                  idx ⟨.M_OP_BLOCK, else_block⟩
                some ((s3.minsts.getD idx mzero).vreg, s3)
        | .IR_COPY operand =>
            let idx := s.minsts.length
            let s0c := match (env id).users.find?
                (fun u => is_phi_inst (env u)) with
              | some _ => s
              | none => set_counter s (s.mi_counter + 1)
            let s1 := push_minst s0c id
              { mzero with
                kind := .M_COPY
                vreg := match (env id).users.find?
                    (fun u => is_phi_inst (env u)) with
                  | some p => phi_vreg_of (env p).kind
                  | none => s.mi_counter }
            match ir_to_mir_impl env fuel s1 operand true with
            | none => none
            | some (v, s2) =>
                let s3 := set_op0 s2 idx ⟨.M_OP_REG, v⟩
                some ((s3.minsts.getD idx mzero).vreg, s3)
        | .IR_BIN op lhs rhs =>
            let idx := s.minsts.length
            let s1 := push_minst (set_counter s (s.mi_counter + 1)) id
              { mzero with kind := .M_BIN op, vreg := s.mi_counter }
            match ir_to_mir_impl env fuel s1 lhs true with
            | none => none
            | some (vl, s2) =>
              let s3 := set_op0 s2 idx ⟨.M_OP_REG, vl⟩
              match ir_to_mir_impl env fuel s3 rhs true with
              | none => none
              | some (vr, s4) =>
                let s5 := set_op1 s4 idx ⟨.M_OP_REG, vr⟩
                some ((s5.minsts.getD idx mzero).vreg, s5)
        | .IR_STATIC_REF static_ref =>
            let idx := s.minsts.length
            let s1 := set_op0
              (push_minst (set_counter s (s.mi_counter + 1)) id
                { mzero with kind := .M_COPY, vreg := s.mi_counter })
              idx ⟨.M_OP_STATIC_REF, static_ref⟩
            some ((s1.minsts.getD idx mzero).vreg, s1)
        | .IR_FUNC_REF function_ref =>
            let idx := s.minsts.length
            let s1 := set_op0
              (push_minst (set_counter s (s.mi_counter + 1)) id
                { mzero with kind := .M_COPY, vreg := s.mi_counter })
              idx ⟨.M_OP_FUNC, function_ref⟩
            some ((s1.minsts.getD idx mzero).vreg, s1)
        | .IR_STORE addr value =>
            let idx := s.minsts.length
            let s1 := push_minst s id
              { mzero with kind := .M_STORE, vreg := VREG_INVALID }
            match ir_to_mir_impl env fuel s1 addr true with
            | none => none
            | some (va, s2) =>
              let s3 := set_op0 s2 idx ⟨.M_OP_REG, va⟩
              match ir_to_mir_impl env fuel s3 value true with
              | none => none
              | some (vv, s4) =>
                let s5 := set_op1 s4 idx ⟨.M_OP_REG, vv⟩
                some ((s5.minsts.getD idx mzero).vreg, s5)
        | .IR_NOT operand =>
            let idx := s.minsts.length
            let s1 := push_minst (set_counter s (s.mi_counter + 1)) id
              { mzero with kind := .M_NOT, vreg := s.mi_counter }
            match ir_to_mir_impl env fuel s1 operand true with
            | none => none
            | some (v, s2) =>
                let s3 := set_op0 s2 idx ⟨.M_OP_REG, v⟩
                some ((s3.minsts.getD idx mzero).vreg, s3)
        | .IR_REGISTER => some ((env id).result, s)
        | .IR_UNREACHABLE => some (VREG_INVALID, s)
        | .IR_ALLOCA => none
        | .IR_PARAMETER _ => none
        | .IR_LIT_INTEGER => none
        | .IR_LIT_STRING => none

/-- The wrapper `ir_to_mir` (part_006:173-175): lower with the refcount
increased. -/
def ir_to_mir (env : Nat → IRInstruction) (fuel : Nat) (s : MirState)
    (id : Nat) : Option (Nat × MirState) :=
  ir_to_mir_impl env fuel s id true

/-- Preservation relation between lowering states: no created MInst is
dropped, the vreg and opcode of every already-created MInst are unchanged
(writes after creation touch only refcount, operands and bundle), and the
`ir->mi` memo pointers already set stay set. -/
def state_preserved (s s2 : MirState) : Prop :=
  s.minsts.length ≤ s2.minsts.length ∧
  (∀ idx, idx < s.minsts.length →
    (s2.minsts.getD idx mzero).vreg = (s.minsts.getD idx mzero).vreg ∧
    (s2.minsts.getD idx mzero).kind = (s.minsts.getD idx mzero).kind) ∧
  (∀ j k, s.memo j = some k → s2.memo j = some k)

/-- Test graph for the call-lowering theorem: three immediates feeding a
direct call to function 7 (instruction 3 has three arguments, instruction
4 two). -/
def c7_env : Nat → IRInstruction :=
  fun id =>
    match id with
    | 0 => ⟨.IR_IMMEDIATE 10, [3], 0⟩
    | 1 => ⟨.IR_IMMEDIATE 20, [3], 0⟩
    | 2 => ⟨.IR_IMMEDIATE 30, [3], 0⟩
    | 3 => ⟨.IR_CALL false 0 7 [0, 1, 2] false, [], 0⟩
    | 4 => ⟨.IR_CALL false 0 7 [0, 1] false, [], 0⟩
    | _ => ⟨.IR_UNREACHABLE, [], 0⟩

/-- Fresh lowering state: counter at VREG_MIN, no MInsts, no memo. -/
def mir_state_empty : MirState := ⟨1024, [], fun _ => none⟩

/-- Test graph for the memoization theorem: an immediate, a copy of it
whose users include a Phi, and the Phi with vreg 2000. -/
def c9_env : Nat → IRInstruction :=
  fun id =>
    match id with
    | 0 => ⟨.IR_IMMEDIATE 10, [1, 2], 0⟩
    | 1 => ⟨.IR_COPY 0, [2], 0⟩
    | 2 => ⟨.IR_PHI 2000, [], 0⟩
    | _ => ⟨.IR_UNREACHABLE, [], 0⟩

/-- A state with one MInst already created and memoized for instruction
5. -/
def c9_s1 : MirState :=
  ⟨1024, [{ mzero with vreg := 1500 }],
    fun j => if j = 5 then some 0 else none⟩

/-! ## Claim C2: local-label resolution (part_009:2741-2786, at the end
of `emit_x86_64_generic_object`) -/

/-- The in-memory object as the resolution pass sees it: the code
section's byte buffer (the 0th section), the symbol table and the
relocation table (`GenericObjectFile`, part_011:66-72; the other sections
are untouched by the pass). -/
structure GenericObjectFile where
  code : List Nat
  symbols : List GObjSymbol
  relocs : List RelocationEntry
deriving Repr

/-- A name begins with `.L`: its first two characters are `.` and `L`
(the `memcmp(sym->name, ".L", 2) == 0` of part_009:2746, 2778; the names
are ASCII so bytes and characters coincide). -/
def name_starts_with_dot_l (s : String) : Bool :=
  s.data.take 2 == ['.', 'L']

/-- The local-label test `strlen(sym->name) > 2 && memcmp(sym->name,
".L", 2) == 0` (part_009:2746, 2778). -/
def is_local_label_name (s : String) : Bool :=
  decide (2 < s.length) && name_starts_with_dot_l s

/-- The linear search for the symbol entry with the relocation's name
(part_009:2750-2757), returning the first match. -/
def find_label_symbol (symbols : List GObjSymbol) (nm : String) :
    Option GObjSymbol :=
  symbols.find? (fun s2 => s2.name == nm)

/-- Reinterpretation of a size_t byte offset as int32, the
`(int32_t)` casts of part_009:2761. -/
def int32_of_nat (n : Nat) : Int :=
  if n % 2 ^ 32 < 2 ^ 31 then ((n % 2 ^ 32 : Nat) : Int)
  else ((n % 2 ^ 32 : Nat) : Int) - 2 ^ 32

/-- The displacement computed by the pass (part_009:2761):
`disp32 = (int32_t)label_sym->byte_offset - (4 + (int32_t)sym->byte_offset)`. -/
def local_label_disp32 (target_offset reloc_offset : Nat) : Int :=
  int32_of_nat target_offset - (4 + int32_of_nat reloc_offset)

/-- The four-byte little-endian store of the disp32 into the code buffer
(the byte-copy loop of part_009:2762-2766 on a little-endian host). -/
def patch4 (code : List Nat) (off : Nat) (v : Int) : List Nat :=
  ((((code.set off ((le_bytes 4 v).getD 0 0)).set (off + 1)
      ((le_bytes 4 v).getD 1 0)).set (off + 2)
      ((le_bytes 4 v).getD 2 0)).set (off + 3) ((le_bytes 4 v).getD 3 0))

/-- One iteration of the relocation scan (part_009:2743-2768): a
relocation on a `.L` name looks up the label symbol (ICE — `none` — when
missing) and patches the code at the relocation offset; other relocations
are skipped. -/
def resolve_relocation_step (symbols : List GObjSymbol) (code : List Nat)
    (r : RelocationEntry) : Option (List Nat) :=
  if is_local_label_name r.sym.name then
    match find_label_symbol symbols r.sym.name with
    | none => none
    | some lab =>
        some (patch4 code r.sym.byte_offset
          (local_label_disp32 lab.byte_offset r.sym.byte_offset))
  else some code

/-- The full relocation scan, in table order. -/
def resolve_patches (symbols : List GObjSymbol) :
    List Nat → List RelocationEntry → Option (List Nat)
| code, [] => some code
| code, r :: rest =>
    match resolve_relocation_step symbols code r with
    | none => none
    | some c2 => resolve_patches symbols c2 rest

/-- The local-label resolution pass (part_009:2741-2786): patch every
`.L` relocation, then drop those relocations and every `.L` symbol.
Collecting the matching indices in order and `vector_remove_index`-ing
them in reverse (part_009:2769-2786) removes exactly the matching
elements, i.e. filters the tables. -/
def resolve_local_labels (obj : GenericObjectFile) :
    Option GenericObjectFile :=
  match resolve_patches obj.symbols obj.code obj.relocs with
  | none => none
  | some code2 =>
      some { code := code2
             symbols := obj.symbols.filter
               (fun s2 => !(is_local_label_name s2.name))
             relocs := obj.relocs.filter
               (fun r => !(is_local_label_name r.sym.name)) }

/-- The four bytes of the code section at a byte offset. -/
def read4 (code : List Nat) (off : Nat) : List Nat :=
  [code.getD off 0, code.getD (off + 1) 0, code.getD (off + 2) 0,
    code.getD (off + 3) 0]

/-- Non-overlap of the 4-byte patch ranges of two relocations. -/
def reloc_disjoint (a b : RelocationEntry) : Prop :=
  a.sym.byte_offset + 4 ≤ b.sym.byte_offset ∨
    b.sym.byte_offset + 4 ≤ a.sym.byte_offset

instance reloc_disjoint_decidable : DecidableRel reloc_disjoint :=
  fun _ _ => inferInstanceAs (Decidable (_ ∨ _))

/-- Concrete object for the resolution witness: a 12-byte code section,
a function symbol, a local label `.L1` at offset 8 and one relocation on
`.L1` at offset 2. -/
def c2_obj : GenericObjectFile :=
  { code := List.replicate 12 0
    symbols := [⟨.GOBJ_SYMTYPE_FUNCTION, "f", ".text", 0⟩,
      ⟨.GOBJ_SYMTYPE_STATIC, ".L1", ".text", 8⟩]
    relocs := [⟨.RELOC_DISP32_PCREL,
      ⟨.GOBJ_SYMTYPE_NONE, ".L1", ".text", 2⟩, 0⟩] }

/-! ### Theorems -/

/-- State preservation is reflexive. -/
theorem sp_refl (s : MirState) : state_preserved s s :=
  ⟨le_refl _, fun _ _ => ⟨rfl, rfl⟩, fun _ _ h => h⟩

/-- State preservation is transitive. -/
theorem sp_trans {a b c : MirState} (h1 : state_preserved a b)
    (h2 : state_preserved b c) : state_preserved a c := by
  obtain ⟨l1, v1, m1⟩ := h1
  obtain ⟨l2, v2, m2⟩ := h2
  refine ⟨le_trans l1 l2, fun idx hidx => ?_, fun j k h => m2 j k (m1 j k h)⟩
  have hb := v1 idx hidx
  have hc := v2 idx (lt_of_lt_of_le hidx l1)
  exact ⟨hc.1.trans hb.1, hc.2.trans hb.2⟩

/-- Setting the counter preserves the state. -/
theorem sp_set_counter (s : MirState) (c : Nat) :
    state_preserved s (set_counter s c) :=
  ⟨le_refl _, fun _ _ => ⟨rfl, rfl⟩, fun _ _ h => h⟩

/-- Creating a fresh MInst for an un-memoized instruction preserves the
state. -/
theorem sp_push_minst (s : MirState) (id : Nat) (mi : MInst)
    (h : s.memo id = none) : state_preserved s (push_minst s id mi) := by
  refine ⟨?_, ?_, ?_⟩
  · simp [push_minst]
  · intro idx hidx
    constructor <;>
      simp [push_minst, List.getD_eq_getElem?_getD, List.getElem?_append,
        hidx]
  · intro j k hk
    simp only [push_minst]
    by_cases hj : j = id
    · subst hj
      rw [h] at hk
      exact absurd hk (by simp)
    · simpa [hj] using hk

/-- A field write that keeps vreg and kind preserves the state. -/
theorem sp_update_minst (s : MirState) (idx : Nat) (f : MInst → MInst)
    (hv : ∀ m, (f m).vreg = m.vreg) (hk : ∀ m, (f m).kind = m.kind) :
    state_preserved s (update_minst s idx f) := by
  refine ⟨by simp [update_minst], ?_, fun _ _ h => h⟩
  intro i hi
  by_cases hij : idx = i
  · subst hij
    constructor <;>
      simp [update_minst, List.getD_eq_getElem?_getD,
        List.getElem?_set_self, hi, hv, hk]
  · constructor <;>
      simp [update_minst, List.getD_eq_getElem?_getD,
        List.getElem?_set_ne hij]

/-- Refcount bumps preserve the state. -/
theorem sp_bump_refcount (s : MirState) (idx : Nat) :
    state_preserved s (bump_refcount s idx) :=
  sp_update_minst s idx _ (fun _ => rfl) (fun _ => rfl)

/-- Operand-slot writes preserve the state. -/
theorem sp_set_op0 (s : MirState) (idx : Nat) (op : MachineOperand) :
    state_preserved s (set_op0 s idx op) :=
  sp_update_minst s idx _ (fun _ => rfl) (fun _ => rfl)

/-- Operand-slot writes preserve the state. -/
theorem sp_set_op1 (s : MirState) (idx : Nat) (op : MachineOperand) :
    state_preserved s (set_op1 s idx op) :=
  sp_update_minst s idx _ (fun _ => rfl) (fun _ => rfl)

/-- Operand-slot writes preserve the state. -/
theorem sp_set_op2 (s : MirState) (idx : Nat) (op : MachineOperand) :
    state_preserved s (set_op2 s idx op) :=
  sp_update_minst s idx _ (fun _ => rfl) (fun _ => rfl)

/-- Bundle pushes preserve the state. -/
theorem sp_push_bundle (s : MirState) (idx : Nat)
    (ops : List MachineOperand) :
    state_preserved s (push_bundle s idx ops) :=
  sp_update_minst s idx _ (fun _ => rfl) (fun _ => rfl)

/-- Sequential operand-list lowering preserves the state whenever the
element lowering does. -/
theorem sp_lower_operand_list
    (f : MirState → Nat → Option (Nat × MirState))
    (hf : ∀ s a v s2, f s a = some (v, s2) → state_preserved s s2) :
    ∀ args s vs s2, lower_operand_list f s args = some (vs, s2) →
      state_preserved s s2 := by
  intro args
  induction args with
  | nil =>
      intro s vs s2 h
      simp only [lower_operand_list, Option.some.injEq, Prod.mk.injEq] at h
      exact h.2 ▸ sp_refl s
  | cons a rest ihr =>
      intro s vs s2 h
      simp only [lower_operand_list] at h
      split at h
      · simp at h
      · rename_i v1 s1 he
        split at h
        · simp at h
        · rename_i vs2 s3 hr
          simp only [Option.some.injEq, Prod.mk.injEq] at h
          exact h.2 ▸ sp_trans (hf s a v1 s1 he) (ihr s1 vs2 s3 hr)

/-- Claim C1: frame kind None is chosen exactly when optimization is on,
the function has no locals and it is a leaf (then no prologue/epilogue);
Minimal exactly when optimization is on and there are no locals but the
function is not a leaf (prologue `SUB RSP, align16(frame)+8`, epilogue
`ADD RSP, align16(frame)+8`); Full in every other case (prologue
`PUSH RBP; MOV RSP,RBP; SUB RSP, align16(frame)`, epilogue
`MOV RBP,RSP; POP RBP`), where SUB/ADD of immediate 0 is elided by
`mcode_imm_to_reg`. -/
theorem c1_stack_frame_kinds (opt leaf : Bool) (locals fs : Nat) :
    (stack_frame_kind opt locals leaf = .FRAME_NONE ↔
      (opt = true ∧ locals = 0 ∧ leaf = true)) ∧
    (stack_frame_kind opt locals leaf = .FRAME_MINIMAL ↔
      (opt = true ∧ locals = 0 ∧ leaf = false)) ∧
    (stack_frame_kind opt locals leaf = .FRAME_FULL ↔
      (opt = false ∨ locals ≠ 0)) ∧
    function_prologue .FRAME_NONE fs = [] ∧
    function_epilogue .FRAME_NONE fs = [] ∧
    function_prologue .FRAME_MINIMAL fs =
      [.sub_ri (align_to fs 16 + 8) .RSP] ∧
    function_epilogue .FRAME_MINIMAL fs =
      [.add_ri (align_to fs 16 + 8) .RSP] ∧
    function_prologue .FRAME_FULL fs =
      [.push .RBP .r64, .mov_rr .RSP .RBP] ++
        imm_to_reg_sub (align_to fs 16) .RSP ∧
    function_epilogue .FRAME_FULL fs = [.mov_rr .RBP .RSP, .pop .RBP .r64] := by
  have halign : align_to fs 16 = 0 ↔ fs = 0 := by
    unfold align_to
    constructor
    · intro h
      rcases Nat.eq_zero_or_pos fs with h0 | hpos
      · exact h0
      · exfalso
        have h16 : (fs + 16 - 1) / 16 ≥ 1 := by
          apply Nat.le_div_iff_mul_le (by norm_num) |>.mpr
          omega
        omega
    · intro h; subst h; norm_num
  refine ⟨?_, ?_, ?_, rfl, rfl, ?_, ?_, ?_, rfl⟩
  · unfold stack_frame_kind
    cases opt <;> cases leaf <;> by_cases h : locals = 0 <;> simp [h]
  · unfold stack_frame_kind
    cases opt <;> cases leaf <;> by_cases h : locals = 0 <;> simp [h]
  · unfold stack_frame_kind
    cases opt <;> cases leaf <;> by_cases h : locals = 0 <;> simp [h]
  · unfold function_prologue imm_to_reg_sub
    have : align_to fs 16 + 8 ≠ 0 := by omega
    simp [this]
  · unfold function_epilogue imm_to_reg_add
    have : align_to fs 16 + 8 ≠ 0 := by omega
    simp [this]
  · unfold function_prologue imm_to_reg_sub
    by_cases h : fs = 0
    · subst h
      have h0 : align_to 0 16 = 0 := by unfold align_to; norm_num
      simp [h0]
    · have h0 : align_to fs 16 ≠ 0 := fun hc => h (halign.mp hc)
      simp [h, h0]

/-- Patching four bytes never changes the buffer length. -/
theorem patch4_length (c : List Nat) (off : Nat) (v : Int) :
    (patch4 c off v).length = c.length := by simp [patch4]

/-- The little-endian image has exactly `n` bytes. -/
theorem le_bytes_length (n : Nat) (v : Int) : (le_bytes n v).length = n := by
  simp [le_bytes]

/-- A four-element list is its own list of the first four reads. -/
theorem four_of_length :
    ∀ (l : List Nat), l.length = 4 →
      [l.getD 0 0, l.getD 1 0, l.getD 2 0, l.getD 3 0] = l
| [_, _, _, _], _ => rfl
| [], h => absurd h (by simp)
| [_], h => absurd h (by simp)
| [_, _], h => absurd h (by simp)
| [_, _, _], h => absurd h (by simp)
| _ :: _ :: _ :: _ :: _ :: _, h => absurd h (by simp)

/-- Reading a byte outside the patched range sees the old buffer. -/
theorem getD_patch4_outside (c : List Nat) (off : Nat) (v : Int)
    (pos : Nat) (h : pos + 1 ≤ off ∨ off + 4 ≤ pos) :
    (patch4 c off v).getD pos 0 = c.getD pos 0 := by
  have e0 : off ≠ pos := by omega
  have e1 : off + 1 ≠ pos := by omega
  have e2 : off + 2 ≠ pos := by omega
  have e3 : off + 3 ≠ pos := by omega
  simp [patch4, List.getD_eq_getElem?_getD, List.getElem?_set', e0, e1, e2,
    e3]

/-- Reading the patched range of an in-bounds patch yields exactly the
four little-endian bytes written. -/
theorem read4_patch4_self (c : List Nat) (off : Nat) (v : Int)
    (h : off + 4 ≤ c.length) :
    read4 (patch4 c off v) off = le_bytes 4 v := by
  have hc0 : off < c.length := by omega
  have hc1 : off + 1 < c.length := by omega
  have hc2 : off + 2 < c.length := by omega
  have hc3 : off + 3 < c.length := by omega
  have h0 : (patch4 c off v).getD off 0 = (le_bytes 4 v).getD 0 0 := by
    have e1 : off + 1 ≠ off := by omega
    have e2 : off + 2 ≠ off := by omega
    have e3 : off + 3 ≠ off := by omega
    simp [patch4, List.getD_eq_getElem?_getD, List.getElem?_set', e1, e2,
      e3, List.getElem?_eq_getElem, hc0]
  have h1 : (patch4 c off v).getD (off + 1) 0 = (le_bytes 4 v).getD 1 0 := by
    have e0 : off ≠ off + 1 := by omega
    have e2 : off + 2 ≠ off + 1 := by omega
    have e3 : off + 3 ≠ off + 1 := by omega
    simp [patch4, List.getD_eq_getElem?_getD, List.getElem?_set', e0, e2,
      e3, List.getElem?_eq_getElem, hc1]
  have h2 : (patch4 c off v).getD (off + 2) 0 = (le_bytes 4 v).getD 2 0 := by
    have e0 : off ≠ off + 2 := by omega
    have e1 : off + 1 ≠ off + 2 := by omega
    have e3 : off + 3 ≠ off + 2 := by omega
    simp [patch4, List.getD_eq_getElem?_getD, List.getElem?_set', e0, e1,
      e3, List.getElem?_eq_getElem, hc2]
  have h3 : (patch4 c off v).getD (off + 3) 0 = (le_bytes 4 v).getD 3 0 := by
    have e0 : off ≠ off + 3 := by omega
    have e1 : off + 1 ≠ off + 3 := by omega
    have e2 : off + 2 ≠ off + 3 := by omega
    simp [patch4, List.getD_eq_getElem?_getD, List.getElem?_set', e0, e1,
      e2, List.getElem?_eq_getElem, hc3]
  unfold read4
  rw [h0, h1, h2, h3]
  exact four_of_length _ (le_bytes_length 4 v)

/-- Reading a 4-byte range disjoint from the patched range sees the old
buffer. -/
theorem read4_patch4_disjoint (c : List Nat) (off : Nat) (v : Int)
    (off2 : Nat) (h : off2 + 4 ≤ off ∨ off + 4 ≤ off2) :
    read4 (patch4 c off v) off2 = read4 c off2 := by
  unfold read4
  rw [getD_patch4_outside c off v off2 (by omega),
    getD_patch4_outside c off v (off2 + 1) (by omega),
    getD_patch4_outside c off v (off2 + 2) (by omega),
    getD_patch4_outside c off v (off2 + 3) (by omega)]

/-- One resolution step never changes the buffer length. -/
theorem resolve_relocation_step_length (symbols : List GObjSymbol)
    (c : List Nat) (r : RelocationEntry) (c1 : List Nat)
    (h : resolve_relocation_step symbols c r = some c1) :
    c1.length = c.length := by
  unfold resolve_relocation_step at h
  split at h
  · split at h
    · simp at h
    · simp only [Option.some.injEq] at h
      rw [← h]
      exact patch4_length _ _ _
  · simp only [Option.some.injEq] at h
    rw [← h]

/-- The scan never changes the buffer length. -/
theorem resolve_patches_length (symbols : List GObjSymbol) :
    ∀ (relocs : List RelocationEntry) (c c2 : List Nat),
      resolve_patches symbols c relocs = some c2 → c2.length = c.length := by
  intro relocs
  induction relocs with
  | nil =>
      intro c c2 h
      simp only [resolve_patches, Option.some.injEq] at h
      rw [← h]
  | cons r rest ih =>
      intro c c2 h
      simp only [resolve_patches] at h
      split at h
      · simp at h
      · rename_i c1 heq
        rw [ih c1 c2 h]
        exact resolve_relocation_step_length symbols c r c1 heq

/-- The scan leaves any 4-byte range untouched that is disjoint from the
patch ranges of all its local relocations. -/
theorem resolve_patches_keeps (symbols : List GObjSymbol) :
    ∀ (relocs : List RelocationEntry) (c c2 : List Nat) (off : Nat),
      resolve_patches symbols c relocs = some c2 →
      (∀ r ∈ relocs, is_local_label_name r.sym.name = true →
        off + 4 ≤ r.sym.byte_offset ∨ r.sym.byte_offset + 4 ≤ off) →
      read4 c2 off = read4 c off := by
  intro relocs
  induction relocs with
  | nil =>
      intro c c2 off h _
      simp only [resolve_patches, Option.some.injEq] at h
      rw [← h]
  | cons r rest ih =>
      intro c c2 off h hdis
      simp only [resolve_patches] at h
      split at h
      · simp at h
      · rename_i c1 heq
        rw [ih c1 c2 off h
          (fun r2 hm hl => hdis r2 (List.mem_cons_of_mem _ hm) hl)]
        unfold resolve_relocation_step at heq
        split at heq
        · rename_i hloc
          split at heq
          · simp at heq
          · simp only [Option.some.injEq] at heq
            rw [← heq]
            exact read4_patch4_disjoint c _ _ off
              (hdis r (List.mem_cons_self r rest) hloc)
        · simp only [Option.some.injEq] at heq
          rw [← heq]

/-- The scan succeeds when every local relocation can find its label, and
afterwards every local relocation's range holds its disp32 bytes. -/
theorem resolve_patches_spec (symbols : List GObjSymbol) :
    ∀ (relocs : List RelocationEntry) (c : List Nat),
      (∀ r ∈ relocs, is_local_label_name r.sym.name = true →
        (find_label_symbol symbols r.sym.name).isSome = true) →
      (∀ r ∈ relocs, is_local_label_name r.sym.name = true →
        r.sym.byte_offset + 4 ≤ c.length) →
      (relocs.filter
        (fun r => is_local_label_name r.sym.name)).Pairwise reloc_disjoint →
      ∃ c2, resolve_patches symbols c relocs = some c2 ∧
        c2.length = c.length ∧
        (∀ r ∈ relocs, is_local_label_name r.sym.name = true →
          ∀ lab, find_label_symbol symbols r.sym.name = some lab →
            read4 c2 r.sym.byte_offset =
              le_bytes 4
                (local_label_disp32 lab.byte_offset r.sym.byte_offset)) := by
  intro relocs
  induction relocs with
  | nil =>
      intro c _ _ _
      exact ⟨c, rfl, rfl, by intro r hm; simp at hm⟩
  | cons r rest ih =>
      intro c hfound hbounds hpair
      by_cases hloc : is_local_label_name r.sym.name = true
      · obtain ⟨lab, hlab⟩ := Option.isSome_iff_exists.mp
          (hfound r (List.mem_cons_self r rest) hloc)
        have hstep : resolve_relocation_step symbols c r =
            some (patch4 c r.sym.byte_offset
              (local_label_disp32 lab.byte_offset r.sym.byte_offset)) := by
          unfold resolve_relocation_step
          rw [if_pos hloc, hlab]
        have hfilter : (r :: rest).filter
            (fun r2 => is_local_label_name r2.sym.name) =
            r :: rest.filter (fun r2 => is_local_label_name r2.sym.name) := by
          simp [List.filter_cons, hloc]
        rw [hfilter] at hpair
        have hhead := (List.pairwise_cons.mp hpair).1
        have htail := (List.pairwise_cons.mp hpair).2
        obtain ⟨c2, hres, hlen, hread⟩ := ih
          (patch4 c r.sym.byte_offset
            (local_label_disp32 lab.byte_offset r.sym.byte_offset))
          (fun r2 hm hl => hfound r2 (List.mem_cons_of_mem _ hm) hl)
          (fun r2 hm hl => by
            rw [patch4_length]
            exact hbounds r2 (List.mem_cons_of_mem _ hm) hl)
          htail
        refine ⟨c2, ?_, ?_, ?_⟩
        · simp only [resolve_patches, hstep]
          exact hres
        · rw [hlen]
          exact patch4_length _ _ _
        · intro r2 hm hloc2 lab2 hlab2
          rcases List.mem_cons.mp hm with hm | hm
          · rw [hm] at hlab2 ⊢
            have hlab2eq : lab2 = lab := by
              rw [hlab] at hlab2
              exact (Option.some.injEq _ _ ▸ hlab2).symm
            subst hlab2eq
            have hkeep := resolve_patches_keeps symbols rest _ c2
              r.sym.byte_offset hres
              (fun r3 hm3 hl3 => hhead r3
                (List.mem_filter.mpr ⟨hm3, hl3⟩))
            rw [hkeep]
            exact read4_patch4_self c r.sym.byte_offset _
              (hbounds r (List.mem_cons_self r rest) hloc)
          · exact hread r2 hm hloc2 lab2 hlab2
      · have hstep : resolve_relocation_step symbols c r = some c := by
          unfold resolve_relocation_step
          rw [if_neg hloc]
        have hfalse : is_local_label_name r.sym.name = false := by
          cases hb : is_local_label_name r.sym.name
          · rfl
          · exact absurd hb hloc
        have hfilter : (r :: rest).filter
            (fun r2 => is_local_label_name r2.sym.name) =
            rest.filter (fun r2 => is_local_label_name r2.sym.name) := by
          simp [List.filter_cons, hfalse]
        rw [hfilter] at hpair
        obtain ⟨c2, hres, hlen, hread⟩ := ih c
          (fun r2 hm hl => hfound r2 (List.mem_cons_of_mem _ hm) hl)
          (fun r2 hm hl => hbounds r2 (List.mem_cons_of_mem _ hm) hl)
          hpair
        refine ⟨c2, ?_, hlen, ?_⟩
        · simp only [resolve_patches, hstep]
          exact hres
        · intro r2 hm hloc2 lab2 hlab2
          rcases List.mem_cons.mp hm with hm | hm
          · subst hm
            exact absurd hloc2 hloc
          · exact hread r2 hm hloc2 lab2 hlab2

/-- Claim C2: on an emitted object — where every `.L`-prefixed name has
more than two characters (generated labels are `.L<number>`), every local
relocation finds its label symbol (else the pass ICEs), patches lie in
bounds and patch ranges are disjoint — the local-label resolution pass
succeeds; afterwards no symbol and no relocation name begins with `.L`,
and every resolved relocation's four bytes hold
`disp32 = target_offset - (4 + reloc_offset)` little-endian, where for
offsets below 2^31 the int32 casts are exact. -/
theorem c2_local_label_resolution (obj : GenericObjectFile)
    (hfound : ∀ r ∈ obj.relocs, is_local_label_name r.sym.name = true →
      (find_label_symbol obj.symbols r.sym.name).isSome = true)
    (hsym_len : ∀ s2 ∈ obj.symbols, name_starts_with_dot_l s2.name = true →
      2 < s2.name.length)
    (hrel_len : ∀ r ∈ obj.relocs, name_starts_with_dot_l r.sym.name = true →
      2 < r.sym.name.length)
    (hbounds : ∀ r ∈ obj.relocs, is_local_label_name r.sym.name = true →
      r.sym.byte_offset + 4 ≤ obj.code.length)
    (hpair : (obj.relocs.filter
      (fun r => is_local_label_name r.sym.name)).Pairwise reloc_disjoint) :
    ∃ obj2, resolve_local_labels obj = some obj2 ∧
      (∀ s2 ∈ obj2.symbols, name_starts_with_dot_l s2.name = false) ∧
      (∀ r ∈ obj2.relocs, name_starts_with_dot_l r.sym.name = false) ∧
      (∀ r ∈ obj.relocs, is_local_label_name r.sym.name = true →
        ∀ lab, find_label_symbol obj.symbols r.sym.name = some lab →
          read4 obj2.code r.sym.byte_offset =
            le_bytes 4
              (local_label_disp32 lab.byte_offset r.sym.byte_offset)) ∧
      (∀ t o : Nat, t < 2 ^ 31 → o < 2 ^ 31 →
        local_label_disp32 t o = (t : Int) - (4 + o)) := by
  obtain ⟨c2, hres, hlen, hread⟩ :=
    resolve_patches_spec obj.symbols obj.relocs obj.code hfound hbounds hpair
  refine ⟨{ code := c2
            symbols := obj.symbols.filter
              (fun s2 => !(is_local_label_name s2.name))
            relocs := obj.relocs.filter
              (fun r => !(is_local_label_name r.sym.name)) }, ?_, ?_, ?_,
    ?_, ?_⟩
  · unfold resolve_local_labels
    rw [hres]
  · intro s2 hm
    obtain ⟨hmem, hcond⟩ := List.mem_filter.mp hm
    cases hb : name_starts_with_dot_l s2.name
    · rfl
    · exfalso
      have hlen2 := hsym_len s2 hmem hb
      have : is_local_label_name s2.name = true := by
        simp [is_local_label_name, hb, hlen2]
      simp [this] at hcond
  · intro r hm
    obtain ⟨hmem, hcond⟩ := List.mem_filter.mp hm
    cases hb : name_starts_with_dot_l r.sym.name
    · rfl
    · exfalso
      have hlen2 := hrel_len r hmem hb
      have : is_local_label_name r.sym.name = true := by
        simp [is_local_label_name, hb, hlen2]
      simp [this] at hcond
  · exact hread
  · intro t o ht ho
    have h31 : (2 : Nat) ^ 31 = 2147483648 := by norm_num
    have h32 : (2 : Nat) ^ 32 = 4294967296 := by norm_num
    unfold local_label_disp32 int32_of_nat
    rw [h31] at ht ho
    rw [h32, Nat.mod_eq_of_lt (by omega), Nat.mod_eq_of_lt (by omega),
      h31, if_pos ht, if_pos ho]

/-- Witness for `c2_local_label_resolution` on a 12-byte object with one
`.L1` relocation at offset 2 targeting offset 8 (disp32 = 2). -/
theorem c2_local_label_resolution_witness :
    ∃ obj2, resolve_local_labels c2_obj = some obj2 ∧
      (∀ s2 ∈ obj2.symbols, name_starts_with_dot_l s2.name = false) ∧
      (∀ r ∈ obj2.relocs, name_starts_with_dot_l r.sym.name = false) ∧
      (∀ r ∈ c2_obj.relocs, is_local_label_name r.sym.name = true →
        ∀ lab, find_label_symbol c2_obj.symbols r.sym.name = some lab →
          read4 obj2.code r.sym.byte_offset =
            le_bytes 4
              (local_label_disp32 lab.byte_offset r.sym.byte_offset)) ∧
      (∀ t o : Nat, t < 2 ^ 31 → o < 2 ^ 31 →
        local_label_disp32 t o = (t : Int) - (4 + o)) :=
  c2_local_label_resolution c2_obj (by decide) (by decide) (by decide)
    (by decide) (by decide)

/-- Lowering only ever appends MInsts, never changes the vreg or opcode
of an existing MInst, and never clears an `ir->mi` pointer. -/
theorem ir_to_mir_impl_preserves (env : Nat → IRInstruction) :
    ∀ fuel s id rc v s2,
      ir_to_mir_impl env fuel s id rc = some (v, s2) →
      state_preserved s s2 := by
  intro fuel
  induction fuel with
  | zero => intro s id rc v s2 h; simp [ir_to_mir_impl] at h
  | succ fuel ih =>
    intro s id rc v s2 h
    have ihf : ∀ st a vv st2,
        ir_to_mir_impl env fuel st a true = some (vv, st2) →
        state_preserved st st2 :=
      fun st a vv st2 hh => ih st a true vv st2 hh
    have ihl := sp_lower_operand_list
      (fun st a => ir_to_mir_impl env fuel st a true)
      (fun st a vv st2 hh => ihf st a vv st2 hh)
    simp only [ir_to_mir_impl] at h
    split at h
    · simp at h
    · split at h
      · simp at h
      · split at h
        · -- memoized re-visit
          rename_i idx hmemo
          simp only [Option.some.injEq, Prod.mk.injEq] at h
          cases rc with
          | true => exact h.2 ▸ sp_bump_refcount s idx
          | false => exact h.2 ▸ sp_refl s
        · rename_i hmemo
          split at h
          -- IR_PHI
          · simp only [Option.some.injEq, Prod.mk.injEq] at h
            exact h.2 ▸ sp_refl s
          -- IR_IMMEDIATE
          · simp only [Option.some.injEq, Prod.mk.injEq] at h
            exact h.2 ▸ sp_trans (sp_set_counter s (s.mi_counter + 1))
              (sp_push_minst _ id _ hmemo)
          -- IR_CALL
          · rename_i is_indirect callee_instruction callee_function
              arguments ret_void hkind
            have hsp1 : state_preserved s
                (push_minst (set_counter s
                  (if ret_void then s.mi_counter else s.mi_counter + 1)) id
                  { mzero with
                    kind := .M_CALL
                    vreg := if ret_void then VREG_INVALID
                            else s.mi_counter }) :=
              sp_trans
                (sp_set_counter s
                  (if ret_void then s.mi_counter else s.mi_counter + 1))
                (sp_push_minst _ id _ hmemo)
            split at h
            · simp at h
            · rename_i callee s2c hcallee
              have hsp2 : state_preserved s s2c := by
                split at hcallee
                · split at hcallee
                  · simp at hcallee
                  · rename_i vx sx heq
                    simp only [Option.some.injEq, Prod.mk.injEq] at hcallee
                    exact hcallee.2 ▸ sp_trans hsp1 (ihf _ _ vx sx heq)
                · simp only [Option.some.injEq, Prod.mk.injEq] at hcallee
                  exact hcallee.2 ▸ hsp1
              split at h
              · -- bundled call
                split at h
                · simp at h
                · rename_i vs s3 hargs
                  simp only [Option.some.injEq, Prod.mk.injEq] at h
                  exact h.2 ▸ sp_trans (sp_trans hsp2 (ihl _ _ vs s3 hargs))
                    (sp_push_bundle _ _ _)
              · -- the fixed operand slots
                split at h
                · simp only [Option.some.injEq, Prod.mk.injEq] at h
                  exact h.2 ▸ sp_trans hsp2 (sp_set_op0 _ _ _)
                · split at h
                  · simp at h
                  · rename_i v0 s4 h0
                    simp only [Option.some.injEq, Prod.mk.injEq] at h
                    exact h.2 ▸ sp_trans
                      (sp_trans (sp_trans hsp2 (sp_set_op0 _ _ _))
                        (ihf _ _ v0 s4 h0))
                      (sp_set_op1 _ _ _)
                · split at h
                  · simp at h
                  · rename_i v0 s4 h0
                    split at h
                    · simp at h
                    · rename_i v1 s6 h1
                      simp only [Option.some.injEq, Prod.mk.injEq] at h
                      exact h.2 ▸ sp_trans
                        (sp_trans
                          (sp_trans
                            (sp_trans (sp_trans hsp2 (sp_set_op0 _ _ _))
                              (ihf _ _ v0 s4 h0))
                            (sp_set_op1 _ _ _))
                          (ihf _ _ v1 s6 h1))
                        (sp_set_op2 _ _ _)
          -- IR_LOAD
          · split at h
            · simp at h
            · rename_i vx sx heq
              simp only [Option.some.injEq, Prod.mk.injEq] at h
              exact h.2 ▸ sp_trans
                (sp_trans
                  (sp_trans (sp_set_counter s (s.mi_counter + 1))
                    (sp_push_minst _ id _ hmemo))
                  (ihf _ _ vx sx heq))
                (sp_set_op0 _ _ _)
          -- IR_RETURN
          · split at h
            · simp only [Option.some.injEq, Prod.mk.injEq] at h
              exact h.2 ▸ sp_push_minst _ id _ hmemo
            · split at h
              · simp at h
              · rename_i vx sx heq
                simp only [Option.some.injEq, Prod.mk.injEq] at h
                exact h.2 ▸ sp_trans
                  (sp_trans (sp_push_minst _ id _ hmemo)
                    (ihf _ _ vx sx heq))
                  (sp_set_op0 _ _ _)
          -- IR_BRANCH
          · simp only [Option.some.injEq, Prod.mk.injEq] at h
            exact h.2 ▸ sp_trans (sp_push_minst _ id _ hmemo)
              (sp_set_op0 _ _ _)
          -- IR_BRANCH_CONDITIONAL
          · split at h
            · simp at h
            · rename_i vx sx heq
              simp only [Option.some.injEq, Prod.mk.injEq] at h
              exact h.2 ▸ sp_trans
                (sp_trans
                  (sp_trans
                    (sp_trans (sp_push_minst _ id _ hmemo)
                      (ihf _ _ vx sx heq))
                    (sp_set_op0 _ _ _))
                  (sp_set_op1 _ _ _))
                (sp_set_op2 _ _ _)
          -- IR_COPY
          · have hs0c : state_preserved s
                (match List.find? (fun u => is_phi_inst (env u))
                    (env id).users with
                 | some _ => s
                 | none => set_counter s (s.mi_counter + 1)) := by
              cases List.find? (fun u => is_phi_inst (env u))
                  (env id).users with
              | some p => exact sp_refl s
              | none => exact sp_set_counter s (s.mi_counter + 1)
            have hmemo0 :
                (match List.find? (fun u => is_phi_inst (env u))
                    (env id).users with
                 | some _ => s
                 | none => set_counter s (s.mi_counter + 1)).memo id =
                  none := by
              cases List.find? (fun u => is_phi_inst (env u))
                  (env id).users with
              | some p => exact hmemo
              | none => exact hmemo
            split at h
            · simp at h
            · rename_i vx sx heq
              simp only [Option.some.injEq, Prod.mk.injEq] at h
              exact h.2 ▸ sp_trans
                (sp_trans (sp_trans hs0c (sp_push_minst _ id _ hmemo0))
                  (ihf _ _ vx sx heq))
                (sp_set_op0 _ _ _)
          -- IR_BIN
          · split at h
            · simp at h
            · rename_i vl sx heq
              split at h
              · simp at h
              · rename_i vr sy heq2
                simp only [Option.some.injEq, Prod.mk.injEq] at h
                exact h.2 ▸ sp_trans
                  (sp_trans
                    (sp_trans
                      (sp_trans
                        (sp_trans (sp_set_counter s (s.mi_counter + 1))
                          (sp_push_minst _ id _ hmemo))
                        (ihf _ _ vl sx heq))
                      (sp_set_op0 _ _ _))
                    (ihf _ _ vr sy heq2))
                  (sp_set_op1 _ _ _)
          -- IR_STATIC_REF
          · simp only [Option.some.injEq, Prod.mk.injEq] at h
            exact h.2 ▸ sp_trans
              (sp_trans (sp_set_counter s (s.mi_counter + 1)) (sp_push_minst _ id _ hmemo))
              (sp_set_op0 _ _ _)
          -- IR_FUNC_REF
          · simp only [Option.some.injEq, Prod.mk.injEq] at h
            exact h.2 ▸ sp_trans
              (sp_trans (sp_set_counter s (s.mi_counter + 1)) (sp_push_minst _ id _ hmemo))
              (sp_set_op0 _ _ _)
          -- IR_STORE
          · split at h
            · simp at h
            · rename_i va sx heq
              split at h
              · simp at h
              · rename_i vv sy heq2
                simp only [Option.some.injEq, Prod.mk.injEq] at h
                exact h.2 ▸ sp_trans
                  (sp_trans
                    (sp_trans
                      (sp_trans (sp_push_minst _ id _ hmemo)
                        (ihf _ _ va sx heq))
                      (sp_set_op0 _ _ _))
                    (ihf _ _ vv sy heq2))
                  (sp_set_op1 _ _ _)
          -- IR_NOT
          · split at h
            · simp at h
            · rename_i vx sx heq
              simp only [Option.some.injEq, Prod.mk.injEq] at h
              exact h.2 ▸ sp_trans
                (sp_trans
                  (sp_trans (sp_set_counter s (s.mi_counter + 1))
                    (sp_push_minst _ id _ hmemo))
                  (ihf _ _ vx sx heq))
                (sp_set_op0 _ _ _)
          -- IR_REGISTER
          · simp only [Option.some.injEq, Prod.mk.injEq] at h
            exact h.2 ▸ sp_refl s
          -- IR_UNREACHABLE
          · simp only [Option.some.injEq, Prod.mk.injEq] at h
            exact h.2 ▸ sp_refl s
          -- aborting kinds
          · simp at h
          · simp at h
          · simp at h
          · simp at h

/-- Claim C9: (1) re-visiting an already-lowered instruction (its
`ir->mi` memo pointer set) returns the memoized MInst's vreg and creates
no new MInst — the state is unchanged but for the refcount bump; (2) a
Phi lowers to its own vreg with no MInst created and the state untouched;
(3) an IR Copy with a Phi among its users receives the (first) Phi
user's virtual register as the destination vreg of its MInst, and its
returned vreg is that Phi vreg. -/
theorem c9_ir_to_mir_memoization :
    (∀ (env : Nat → IRInstruction) (fuel : Nat) (s : MirState)
        (id idx : Nat) (rc : Bool),
      fuel ≠ 0 → ¬ s.mi_counter < VREG_MIN → (env id).result = 0 →
      s.memo id = some idx →
      ∃ s2, ir_to_mir_impl env fuel s id rc =
          some ((s.minsts.getD idx mzero).vreg, s2) ∧
        s2.minsts.length = s.minsts.length ∧
        (∀ j, s2.memo j = s.memo j) ∧
        (∀ i2, i2 < s.minsts.length →
          (s2.minsts.getD i2 mzero).vreg = (s.minsts.getD i2 mzero).vreg)) ∧
    (∀ (env : Nat → IRInstruction) (fuel : Nat) (s : MirState)
        (id pv : Nat) (rc : Bool),
      fuel ≠ 0 → ¬ s.mi_counter < VREG_MIN → (env id).result = 0 →
      s.memo id = none → (env id).kind = .IR_PHI pv →
      ir_to_mir_impl env fuel s id rc = some (pv, s)) ∧
    (∀ (env : Nat → IRInstruction) (fuel : Nat) (s : MirState)
        (id op p pv : Nat) (rc : Bool) (v : Nat) (s2 : MirState),
      ¬ s.mi_counter < VREG_MIN → (env id).result = 0 →
      s.memo id = none → (env id).kind = .IR_COPY op →
      (env id).users.find? (fun u => is_phi_inst (env u)) = some p →
      (env p).kind = .IR_PHI pv →
      ir_to_mir_impl env fuel s id rc = some (v, s2) →
      v = pv ∧ s2.memo id = some s.minsts.length ∧
        (s2.minsts.getD s.minsts.length mzero).vreg = pv ∧
        (s2.minsts.getD s.minsts.length mzero).kind = .M_COPY) := by
  refine ⟨?_, ?_, ?_⟩
  · -- memoized re-visit
    intro env fuel s id idx rc hfuel hc hres hmemo
    cases fuel with
    | zero => exact absurd rfl hfuel
    | succ f =>
      cases rc with
      | false =>
          refine ⟨s, ?_, rfl, fun j => rfl, fun i2 _ => rfl⟩
          simp only [ir_to_mir_impl]
          rw [if_neg hc, if_neg (by simp [hres]), hmemo]
          rfl
      | true =>
          refine ⟨bump_refcount s idx, ?_, ?_, fun j => rfl, ?_⟩
          · simp only [ir_to_mir_impl]
            rw [if_neg hc, if_neg (by simp [hres]), hmemo]
            rfl
          · simp [bump_refcount, update_minst]
          · intro i2 hi2
            exact ((sp_bump_refcount s idx).2.1 i2 hi2).1
  · -- Phi: no MInst, the Phi vreg is returned
    intro env fuel s id pv rc hfuel hc hres hmemo hk
    cases fuel with
    | zero => exact absurd rfl hfuel
    | succ f =>
      simp only [ir_to_mir_impl]
      rw [if_neg hc, if_neg (by simp [hres]), hmemo, hk]
  · -- Copy feeding a Phi shares the Phi vreg
    intro env fuel s id op p pv rc v s2 hc hres hmemo hk hfind hphi h
    cases fuel with
    | zero => simp [ir_to_mir_impl] at h
    | succ f =>
      simp only [ir_to_mir_impl] at h
      rw [if_neg hc, if_neg (by simp [hres]), hmemo, hk] at h
      simp only [hfind, hphi, phi_vreg_of] at h
      split at h
      · simp at h
      · rename_i vx sx heq
        simp only [Option.some.injEq, Prod.mk.injEq] at h
        have hsp := ir_to_mir_impl_preserves env f _ op true vx sx heq
        have hlen1 : s.minsts.length <
            (push_minst s id
              { mzero with kind := .M_COPY, vreg := pv }).minsts.length := by
          simp [push_minst]
        have hbase : (push_minst s id
            { mzero with kind := .M_COPY, vreg := pv }).minsts.getD
              s.minsts.length mzero =
            { mzero with kind := .M_COPY, vreg := pv } := by
          simp [push_minst, List.getD_eq_getElem?_getD]
        have hx := hsp.2.1 s.minsts.length hlen1
        have hy := (sp_set_op0 sx s.minsts.length ⟨.M_OP_REG, vx⟩).2.1
          s.minsts.length (lt_of_lt_of_le hlen1 hsp.1)
        have hm1 : (push_minst s id
            { mzero with kind := .M_COPY, vreg := pv }).memo id =
              some s.minsts.length := by
          simp [push_minst]
        have hm2 := hsp.2.2 id s.minsts.length hm1
        have hvreg : (s2.minsts.getD s.minsts.length mzero).vreg = pv := by
          rw [← h.2]
          rw [hy.1, hx.1, hbase]
        have hkind : (s2.minsts.getD s.minsts.length mzero).kind =
            .M_COPY := by
          rw [← h.2]
          rw [hy.2, hx.2, hbase]
        refine ⟨?_, ?_, hvreg, hkind⟩
        · rw [← h.1]
          rw [← h.2] at hvreg
          exact hvreg
        · rw [← h.2]
          exact hm2

/-- Witness for `c9_ir_to_mir_memoization`: a memoized re-visit on a
one-MInst state, a Phi lowering, and a copy feeding the Phi with vreg
2000. -/
theorem c9_ir_to_mir_memoization_witness :
    (∃ s2, ir_to_mir_impl c9_env 3 c9_s1 5 true =
        some ((c9_s1.minsts.getD 0 mzero).vreg, s2) ∧
      s2.minsts.length = c9_s1.minsts.length ∧
      (∀ j, s2.memo j = c9_s1.memo j) ∧
      (∀ i2, i2 < c9_s1.minsts.length →
        (s2.minsts.getD i2 mzero).vreg =
          (c9_s1.minsts.getD i2 mzero).vreg)) ∧
    ir_to_mir_impl c9_env 3 mir_state_empty 2 true =
      some (2000, mir_state_empty) ∧
    ((ir_to_mir_impl c9_env 3 mir_state_empty 1 true).map Prod.fst) =
      some 2000 := by
  refine ⟨?_, ?_, ?_⟩
  · exact c9_ir_to_mir_memoization.1 c9_env 3 c9_s1 5 0 true (by decide)
      (by decide) rfl rfl
  · exact c9_ir_to_mir_memoization.2.1 c9_env 3 mir_state_empty 2 2000 true
      (by decide) (by decide) rfl rfl rfl
  · cases hres2 : ir_to_mir_impl c9_env 3 mir_state_empty 1 true with
    | none =>
        have hs : (ir_to_mir_impl c9_env 3 mir_state_empty 1 true).isSome =
            true := rfl
        rw [hres2] at hs
        cases hs
    | some pr =>
        obtain ⟨v, s2⟩ := pr
        have hv := c9_ir_to_mir_memoization.2.2 c9_env 3 mir_state_empty 1
          0 2 2000 true v s2 (by decide) rfl rfl rfl rfl rfl hres2
        simp [hv.1]

/-- Claim C7 fails on the code: lowering a direct call with three
arguments does bundle the callee operand followed by one register operand
per argument into the heap vector, but the first fixed operand slot keeps
its calloc value M_OP_NONE — `ir_to_mir` never writes the M_OP_BUNDLE
sentinel anywhere (no assignment of M_OP_BUNDLE exists in the source), so
`FOREACH_MIR_OP` sees an empty operand list for the bundled call. The
at-most-two-argument half of the claim holds: callee and argument vregs
fill the three fixed slots. -/
theorem c7_call_bundle_sentinel_bug :
    ((ir_to_mir c7_env 10 mir_state_empty 3).map Prod.fst) = some 1024 ∧
    ((ir_to_mir c7_env 10 mir_state_empty 3).map
        (fun pr => (pr.2.minsts.getD 0 mzero).kind)) = some .M_CALL ∧
    ((ir_to_mir c7_env 10 mir_state_empty 3).map
        (fun pr => (pr.2.minsts.getD 0 mzero).bundle)) =
      some [⟨.M_OP_FUNC, 7⟩, ⟨.M_OP_REG, 1025⟩, ⟨.M_OP_REG, 1026⟩,
        ⟨.M_OP_REG, 1027⟩] ∧
    ((ir_to_mir c7_env 10 mir_state_empty 3).map
        (fun pr => (pr.2.minsts.getD 0 mzero).operands.1.kind)) =
      some .M_OP_NONE ∧
    MOpKind.M_OP_NONE ≠ MOpKind.M_OP_BUNDLE ∧
    ((ir_to_mir c7_env 10 mir_state_empty 3).map
        (fun pr => mir_op_list (pr.2.minsts.getD 0 mzero))) = some [] ∧
    ((ir_to_mir c7_env 10 mir_state_empty 4).map
        (fun pr => (pr.2.minsts.getD 0 mzero).operands)) =
      some (⟨.M_OP_FUNC, 7⟩, ⟨.M_OP_REG, 1025⟩, ⟨.M_OP_REG, 1026⟩) ∧
    ((ir_to_mir c7_env 10 mir_state_empty 4).map
        (fun pr => (pr.2.minsts.getD 0 mzero).bundle)) = some [] := by
  refine ⟨rfl, rfl, by decide, rfl, by decide, by decide, by decide,
    by decide⟩

/-- Claim C4, as stated, is false: the immediate INT32_MAX = 2147483647
fits in a signed 32-bit integer, yet `mcode_imm_to_reg` emits the 10-byte
REX.W + 0xB8+rd io form for it (the narrowing test on part_009:224-225 is
strict on both ends), not the 32-bit 0xB8+rd id form. -/
theorem c4_counterexample :
    (-2147483648 ≤ (2147483647 : Int) ∧ (2147483647 : Int) ≤ 2147483647) ∧
    mcode_imm_to_reg_mov 2147483647 .RAX .r64 =
      [0x48, 0xb8, 0xff, 0xff, 0xff, 0x7f, 0x00, 0x00, 0x00, 0x00] ∧
    (mcode_imm_to_reg_mov 2147483647 .RAX .r64).length = 10 ∧
    mcode_imm_to_reg_mov 2147483647 .RAX .r64 ≠
      [0xb8] ++ le_bytes 4 2147483647 := by
  refine ⟨by decide, ?_, ?_, ?_⟩ <;>
    simp [mcode_imm_to_reg_mov, le_bytes, List.range_succ] <;> decide

/-- Claim C4 amended: a 64-bit MOV immediate strictly between INT32_MIN
and INT32_MAX narrows to the 32-bit 0xB8+rd id form (4-byte immediate),
and the immediate INT32_MAX+1 is emitted (for every destination
register) as the 10-byte REX.W + 0xB8+rd io form with an 8-byte
immediate. -/
theorem c4_amended_mov64 (imm : Int) (r : Reg) :
    ((-2147483648 < imm ∧ imm < 2147483647) →
      mcode_imm_to_reg_mov imm r .r64 =
        (if regbits_top r then [rex_byte false false false true] else []) ++
          [0xb8 + rd_encoding r] ++ le_bytes 4 imm) ∧
    mcode_imm_to_reg_mov 2147483648 r .r64 =
      [rex_byte true false false (regbits_top r), 0xb8 + rd_encoding r] ++
        le_bytes 8 2147483648 ∧
    (mcode_imm_to_reg_mov 2147483648 r .r64).length = 10 := by
  refine ⟨?_, ?_, ?_⟩
  · intro h
    simp only [mcode_imm_to_reg_mov]
    rw [if_pos ⟨trivial, h.1, h.2⟩]
  · simp only [mcode_imm_to_reg_mov]
    rw [if_neg (by omega)]
  · simp only [mcode_imm_to_reg_mov]
    rw [if_neg (by omega)]
    simp [le_bytes]

/-- Witness for `c4_amended_mov64` at immediate 42 and register RAX. -/
theorem c4_amended_mov64_witness :
    mcode_imm_to_reg_mov 42 .RAX .r64 = [0xb8] ++ le_bytes 4 42 := by
  have h := (c4_amended_mov64 42 .RAX).1 (by constructor <;> decide)
  simpa [regbits_top, regbits, rd_encoding, rw_encoding] using h

/-- Claim C3 fails on `mcode_imm_to_mem` (and the failure is acknowledged
by the TODO/FIXME comment at part_009:155-166): a zero displacement with
base RBP or R13 is encoded as ModR/M mode 0b00 (which the hardware decodes
as RIP-relative) instead of the required mode 0b01 with disp8=0; and a
base of R12 — or RSP with zero displacement — gets no SIB byte at all. -/
theorem c3_imm_to_mem_bug :
    mcode_imm_to_mem_mov 5 .RBP 0 .r64 =
      [0x48, 0xc7, 0x05, 0x05, 0x00, 0x00, 0x00] ∧
    modrm_byte 0b00 0 (regbits .RBP) >>> 6 = 0b00 ∧
    mcode_imm_to_mem_mov 5 .R13 0 .r64 =
      [0x49, 0xc7, 0x05, 0x05, 0x00, 0x00, 0x00] ∧
    mcode_imm_to_mem_mov 5 .R12 0 .r64 =
      [0x49, 0xc7, 0x04, 0x05, 0x00, 0x00, 0x00] ∧
    mcode_imm_to_mem_mov 5 .RSP 0 .r64 =
      [0x48, 0xc7, 0x04, 0x05, 0x00, 0x00, 0x00] ∧
    mcode_imm_to_mem_sub 5 .R12 8 =
      [0x49, 0x81, 0xac, 0x08, 0x00, 0x00, 0x00, 0x05, 0x00, 0x00, 0x00] := by
  refine ⟨?_, by decide, ?_, ?_, ?_, ?_⟩ <;>
    simp [mcode_imm_to_mem_mov, mcode_imm_to_mem_sub, le_bytes,
      List.range_succ, regbits_top, regbits, rex_byte, modrm_byte] <;> decide

/-- Claim C8, as stated, is false for indices at or beyond the in-register
count: `codegen_lower_x86_64` hits the stack-argument TODO and aborts
compilation for `Parameter(6)` under the Linux convention — no load from a
stack argument slot is produced. -/
theorem c8_counterexample :
    codegen_lower_parameter .CG_CALL_CONV_LINUX 6 1024 =
      .error
        "x86_64 backend does not yet support passing arguments on the stack" ∧
    (codegen_lower_parameter .CG_CALL_CONV_LINUX 6 1024).isOk = false := by
  constructor <;> rfl

/-- Claim C8 amended: under the System V (Linux) convention a
`Parameter(i)` with `i < 6` is replaced by an `M_COPY` whose source
operand is the i-th register of RDI, RSI, RDX, RCX, R8, R9; for `i ≥ 6`
the lowering aborts with a fatal unimplemented-construct error (there is
no stack-slot load path). -/
theorem c8_parameter_lowering (c : Nat) :
    (∀ i, i < 6 →
      codegen_lower_parameter .CG_CALL_CONV_LINUX i c =
        .ok ({ kind := .M_COPY, vreg := c, refcount := 0,
               operands := (⟨.M_OP_REG,
                  reg_descriptor (linux_argument_registers.getD i .RAX)⟩,
                 machine_operand_zero, machine_operand_zero),
               bundle := [] }, c + 1)) ∧
    linux_argument_registers = [.RDI, .RSI, .RDX, .RCX, .R8, .R9] ∧
    (∀ i, 6 ≤ i →
      (codegen_lower_parameter .CG_CALL_CONV_LINUX i c).isOk = false) := by
  refine ⟨?_, rfl, ?_⟩
  · intro i hi
    simp only [codegen_lower_parameter]
    rw [if_neg (by simp), if_neg (by omega)]
  · intro i hi
    simp only [codegen_lower_parameter]
    rw [if_neg (by simp), if_pos hi]
    rfl

/-- Witness for `c8_parameter_lowering` at index 1 (RSI) and index 7. -/
theorem c8_parameter_lowering_witness :
    codegen_lower_parameter .CG_CALL_CONV_LINUX 1 1024 =
      .ok ({ kind := .M_COPY, vreg := 1024, refcount := 0,
             operands := (⟨.M_OP_REG, reg_descriptor .RSI⟩,
               machine_operand_zero, machine_operand_zero),
             bundle := [] }, 1025) ∧
    (codegen_lower_parameter .CG_CALL_CONV_LINUX 7 1024).isOk = false := by
  constructor
  · exact (c8_parameter_lowering 1024).1 1 (by omega)
  · exact (c8_parameter_lowering 1024).2.2 7 (by omega)

/-- Claim C5 fails on the code: when IR construction reports an
unresolved-symbol error, `codegen` does return that error to its caller,
but it still invokes `codegen_lower` and `codegen_emit` afterwards — the
`err.type` result of `codegen_program` is never checked before the
lowering and emission phases (part_000:865-875). -/
theorem c5_error_still_runs_lower_and_emit :
    (codegen_expression_reassignment_error true [] "x").t = .ERROR_GENERIC ∧
    codegen_program_err [codegen_expression_reassignment_error true [] "x"] =
      codegen_expression_reassignment_error true [] "x" ∧
    (codegen_run false
        (codegen_program_err
          [codegen_expression_reassignment_error true [] "x"])).err =
      codegen_expression_reassignment_error true [] "x" ∧
    Phase.phase_lower ∈
      (codegen_run false
        (codegen_program_err
          [codegen_expression_reassignment_error true [] "x"])).phases ∧
    Phase.phase_emit ∈
      (codegen_run false
        (codegen_program_err
          [codegen_expression_reassignment_error true [] "x"])).phases := by
  refine ⟨rfl, by decide, by decide, ?_, ?_⟩ <;> simp [codegen_run]

/-- Claim C6 fails on `codegen_function`: for an empty body the code
passes `last_expression->result` to `ir_return` with `last_expression`
still NULL (part_000:752-763) — modelled as `none`, no value exists and no
immediate-0 Return is emitted; the immediate-0 fallback exists only in
`codegen_program` (part_000:790-793). -/
theorem c6_empty_body_null_deref :
    codegen_function_return_arg [] = none ∧
    codegen_program_return_arg [] = .ret_imm_zero ∧
    codegen_function_return_arg [⟨5⟩] = some 5 := by
  refine ⟨rfl, rfl, rfl⟩

/-- Claim C10: every relocation pushed by the name-branch (CALL/JMP),
conditional-jump and RIP-relative LEA emission paths starts from the
zero-initialized entry and never assigns the addend, so its addend is 0
(and, for the record, its type is DISP32_PCREL). -/
theorem c10_relocation_addends_zero (pos : Nat) (name sec : String)
    (isf : Bool) (t : IndirectJumpType) (dst : Reg) (size : RegSize) :
    (mcode_name_call pos name sec isf).2.addend = 0 ∧
    (mcode_name_jmp pos name sec isf).2.addend = 0 ∧
    (mcode_jcc pos t name sec isf).2.addend = 0 ∧
    (∀ bytes reloc,
      mcode_name_to_reg_lea_rip pos name sec dst size = some (bytes, reloc) →
      reloc.addend = 0) ∧
    (mcode_name_call pos name sec isf).2.rtype = .RELOC_DISP32_PCREL ∧
    (mcode_name_jmp pos name sec isf).2.rtype = .RELOC_DISP32_PCREL ∧
    (mcode_jcc pos t name sec isf).2.rtype = .RELOC_DISP32_PCREL := by
  refine ⟨rfl, rfl, rfl, ?_, rfl, rfl, rfl⟩
  intro bytes reloc h
  cases size <;> simp [mcode_name_to_reg_lea_rip] at h <;>
    simp [← h.2, relocation_entry_zero]

/-- Witness for `c10_relocation_addends_zero` at a concrete LEA input. -/
theorem c10_relocation_addends_zero_witness :
    ∃ bytes reloc,
      mcode_name_to_reg_lea_rip 0 "msg" ".text" .RAX .r64 =
        some (bytes, reloc) ∧ reloc.addend = 0 := by
  refine ⟨_, _, rfl, ?_⟩
  exact (c10_relocation_addends_zero 0 "msg" ".text" false .JUMP_TYPE_E
    .RAX .r64).2.2.2.1 _ _ rfl

end Funcomp
